import Mathlib

/-!
# RFD77402 time-of-flight sensor driver

A shallow embedding of `SparkFun_RFD77402_Arduino_Library.{h,cpp}`.

* Machine integers are `Nat`; every store into a `uint8_t` or `uint16_t`
  is written with an explicit `% 256` or `% 65536` where the value could
  exceed the type.
* The Arduino `Wire` object is the record `TwoWire`: its transmit and
  receive buffers, the device on the far side of the bus (a `Peer`), and the
  log of everything the outside world can observe (bus transactions and
  calls of `delay`), oldest event first.
* Every driver method takes the object and returns the updated object next
  to its C++ return value.
* A `for (x = 0; x < 10; x++)` loop is a structural recursion on the number
  of iterations left.
-/

namespace Rfd

/-! ## Constants of the header -/

def RFD77402_ADDR : Nat := 0x4C

def RFD77402_ICSR : Nat := 0x00
def RFD77402_INTERRUPTS : Nat := 0x02
def RFD77402_COMMAND : Nat := 0x04
def RFD77402_DEVICE_STATUS : Nat := 0x06
def RFD77402_RESULT : Nat := 0x08
def RFD77402_RESULT_CONFIDENCE : Nat := 0x0A
def RFD77402_CONFIGURE_A : Nat := 0x0C
def RFD77402_CONFIGURE_B : Nat := 0x0E
def RFD77402_HOST_TO_MCPU_MAILBOX : Nat := 0x10
def RFD77402_MCPU_TO_HOST_MAILBOX : Nat := 0x12
def RFD77402_CONFIGURE_PMU : Nat := 0x14
def RFD77402_CONFIGURE_I2C : Nat := 0x1C
def RFD77402_CONFIGURE_HW_0 : Nat := 0x20
def RFD77402_CONFIGURE_HW_1 : Nat := 0x22
def RFD77402_CONFIGURE_HW_2 : Nat := 0x24
def RFD77402_CONFIGURE_HW_3 : Nat := 0x26
def RFD77402_MOD_CHIP_ID : Nat := 0x28

def CODE_VALID_DATA : Nat := 0x00
def CODE_FAILED_PIXELS : Nat := 0x01
def CODE_FAILED_SIGNAL : Nat := 0x02
def CODE_FAILED_SATURATED : Nat := 0x03
def CODE_FAILED_NOT_NEW : Nat := 0x04
def CODE_FAILED_TIMEOUT : Nat := 0x05

/-! ## The two-wire bus -/

/-- Events that the outside world observes, in the order they happen: a
write transaction (address byte, then the data bytes), a read request with
the bytes that arrived, and a call of the host's `delay`. -/
inductive Event where
  | transmit (address : Nat) (bytes : List Nat)
  | request (address : Nat) (quantity : Nat) (bytes : List Nat)
  | delay (ms : Nat)
  deriving DecidableEq

/-- The device on the far side of the bus, with state `δ`: how it takes a
write transaction and what it delivers when the host requests `quantity`
bytes. -/
structure Peer (δ : Type) where
  receive : δ → Nat → List Nat → δ
  respond : δ → Nat → Nat → List Nat × δ

/-- The Arduino `Wire` object together with the device attached to it and
the log of observable events. -/
structure TwoWire (δ : Type) where
  txAddress : Nat
  txBuffer : List Nat
  rxBuffer : List Nat
  peer : δ
  trace : List Event

variable {δ : Type}

/-- Conversion of an `int` to `uint8_t`. -/
def toUint8 (i : Int) : Nat := (i % 256).toNat

/-- `Wire.beginTransmission(address)`: start buffering a write. -/
def TwoWire.beginTransmission (w : TwoWire δ) (address : Nat) : TwoWire δ :=
  { w with txAddress := address, txBuffer := [] }

/-- `Wire.write(data)`: queue one byte. -/
def TwoWire.write (w : TwoWire δ) (data : Nat) : TwoWire δ :=
  { w with txBuffer := w.txBuffer ++ [data % 256] }

/-- `Wire.endTransmission()`: the queued bytes go out on the bus. -/
def TwoWire.endTransmission (P : Peer δ) (w : TwoWire δ) : TwoWire δ :=
  { w with
    txBuffer := []
    peer := P.receive w.peer w.txAddress w.txBuffer
    trace := w.trace ++ [Event.transmit w.txAddress w.txBuffer] }

/-- `Wire.requestFrom(address, quantity)`: at most `quantity` bytes arrive
and replace the receive buffer. -/
def TwoWire.requestFrom (P : Peer δ) (w : TwoWire δ) (address quantity : Nat) : TwoWire δ :=
  let r := P.respond w.peer address quantity
  let bytes := (r.1.take quantity).map (fun b => b % 256)
  { w with
    rxBuffer := bytes
    peer := r.2
    trace := w.trace ++ [Event.request address quantity bytes] }

/-- `Wire.available()`: number of bytes waiting in the receive buffer. -/
def TwoWire.available (w : TwoWire δ) : Nat := w.rxBuffer.length

/-- `Wire.read()`: next byte of the receive buffer, `-1` when it is empty. -/
def TwoWire.read (w : TwoWire δ) : Int × TwoWire δ :=
  match w.rxBuffer with
  | [] => (-1, w)
  | b :: rest => ((b : Int), { w with rxBuffer := rest })

/-! ## The driver object -/

/-- The `RFD77402` class: its public variables and the bus it talks to. -/
structure RFD77402 (δ : Type) where
  distance : Nat
  validPixels : Nat
  confidenceValue : Nat
  calibrationData : List Nat
  _i2cPort : TwoWire δ

namespace RFD77402

/-- The host's `delay(ms)`; only its occurrence is recorded. -/
def delay (self : RFD77402 δ) (ms : Nat) : RFD77402 δ :=
  { self with _i2cPort := { self._i2cPort with trace := self._i2cPort.trace ++ [Event.delay ms] } }

/-- `readRegister16`: two bytes from `addr`, low byte first; `0xFFFF` when
the bus did not deliver exactly two bytes. -/
def readRegister16 (P : Peer δ) (self : RFD77402 δ) (addr : Nat) : Nat × RFD77402 δ :=
  let w := self._i2cPort.beginTransmission RFD77402_ADDR
  let w := w.write addr
  let w := w.endTransmission P
  let w := w.requestFrom P RFD77402_ADDR 2
  if w.available ≠ 2 then (0xFFFF, { self with _i2cPort := w })
  else
    let r1 := w.read
    let lower := toUint8 r1.1
    let r2 := r1.2.read
    let higher := toUint8 r2.1
    (((higher <<< 8) ||| lower) % 65536, { self with _i2cPort := r2.2 })

/-- `readRegister`: one byte from `addr`; `0xFF` when none arrived. -/
def readRegister (P : Peer δ) (self : RFD77402 δ) (addr : Nat) : Nat × RFD77402 δ :=
  let w := self._i2cPort.beginTransmission RFD77402_ADDR
  let w := w.write addr
  let w := w.endTransmission P
  let w := w.requestFrom P RFD77402_ADDR 1
  if w.available ≠ 0 then
    let r := w.read
    (toUint8 r.1, { self with _i2cPort := r.2 })
  else (0xFF, { self with _i2cPort := w })

/-- `writeRegister16`: address, then the low byte, then the high byte. -/
def writeRegister16 (P : Peer δ) (self : RFD77402 δ) (addr val : Nat) : RFD77402 δ :=
  let w := self._i2cPort.beginTransmission RFD77402_ADDR
  let w := w.write addr
  let w := w.write (val &&& 0xFF)
  let w := w.write (val >>> 8)
  let w := w.endTransmission P
  { self with _i2cPort := w }

/-- `writeRegister`: address, then the byte. -/
def writeRegister (P : Peer δ) (self : RFD77402 δ) (addr val : Nat) : RFD77402 δ :=
  let w := self._i2cPort.beginTransmission RFD77402_ADDR
  let w := w.write addr
  let w := w.write val
  let w := w.endTransmission P
  { self with _i2cPort := w }

/-- The poll loop shared by `goToStandbyMode`, `goToOffMode` and
`goToOnMode`, with `n` iterations left: read the device status, succeed when
its low five bits are `target`, otherwise `delay(10)` and go round again. -/
def pollDeviceStatus (P : Peer δ) (target : Nat) : Nat → RFD77402 δ → Bool × RFD77402 δ
  | 0, self => (false, self)
  | n + 1, self =>
    let r := readRegister16 P self RFD77402_DEVICE_STATUS
    if r.1 &&& 0x001F = target then (true, r.2)
    else pollDeviceStatus P target n (r.2.delay 10)

/-- `goToStandbyMode`: opcode `0x90`, then up to ten status polls for `0x00`. -/
def goToStandbyMode (P : Peer δ) (self : RFD77402 δ) : Bool × RFD77402 δ :=
  let self := writeRegister P self RFD77402_COMMAND 0x90
  pollDeviceStatus P 0x0000 10 self

/-- `goToOffMode`: opcode `0x91`, then up to ten status polls for `0x10`. -/
def goToOffMode (P : Peer δ) (self : RFD77402 δ) : Bool × RFD77402 δ :=
  let self := writeRegister P self RFD77402_COMMAND 0x91
  pollDeviceStatus P 0x0010 10 self

/-- `goToOnMode`: opcode `0x92`, then up to ten status polls for `0x18`. -/
def goToOnMode (P : Peer δ) (self : RFD77402 δ) : Bool × RFD77402 δ :=
  let self := writeRegister P self RFD77402_COMMAND 0x92
  pollDeviceStatus P 0x0018 10 self

/-- The poll loop of `goToMeasurementMode`, with `n` iterations left: read
the ICSR byte, succeed when bit 4 is set, otherwise `delay(10)`. -/
def pollDataReady (P : Peer δ) : Nat → RFD77402 δ → Bool × RFD77402 δ
  | 0, self => (false, self)
  | n + 1, self =>
    let r := readRegister P self RFD77402_ICSR
    if r.1 &&& (1 <<< 4) ≠ 0 then (true, r.2)
    else pollDataReady P n (r.2.delay 10)

/-- `goToMeasurementMode`: opcode `0x81`, then up to ten ICSR polls. -/
def goToMeasurementMode (P : Peer δ) (self : RFD77402 δ) : Bool × RFD77402 δ :=
  let self := writeRegister P self RFD77402_COMMAND 0x81
  pollDataReady P 10 self

/-- `takeMeasurement`: one measurement; returns the error code and, when it
is zero, stores distance, valid pixels and confidence. -/
def takeMeasurement (P : Peer δ) (self : RFD77402 δ) : Nat × RFD77402 δ :=
  let m := goToMeasurementMode P self
  if m.1 = false then (CODE_FAILED_TIMEOUT, m.2)
  else
    let r := readRegister16 P m.2 RFD77402_RESULT
    let resultRegister := r.1
    let self := r.2
    if resultRegister &&& 0x7FFF ≠ 0 then
      let errorCode := ((resultRegister >>> 13) &&& 0x03) % 256
      if errorCode = 0 then
        let self := { self with distance := (resultRegister >>> 2) &&& 0x07FF }
        let c := readRegister16 P self RFD77402_RESULT_CONFIDENCE
        let confidenceRegister := c.1
        let self := c.2
        let self := { self with validPixels := (confidenceRegister &&& 0x0F) % 256 }
        let self := { self with confidenceValue := (confidenceRegister >>> 4) &&& 0x07FF }
        (errorCode, self)
      else (errorCode, self)
    else (CODE_FAILED_NOT_NEW, self)

/-- `getDistance`. -/
def getDistance (self : RFD77402 δ) : Nat := self.distance

/-- `getValidPixels`. -/
def getValidPixels (self : RFD77402 δ) : Nat := self.validPixels

/-- `getConfidenceValue`. -/
def getConfidenceValue (self : RFD77402 δ) : Nat := self.confidenceValue

/-- `getPeak`: bits 12-15 of config register A. -/
def getPeak (P : Peer δ) (self : RFD77402 δ) : Nat × RFD77402 δ :=
  let r := readRegister16 P self RFD77402_CONFIGURE_A
  (((r.1 >>> 12) &&& 0x0F) % 256, r.2)

/-- `setPeak`: read config register A, clear bits 12-15 (`&= ~0xF000`), or in
`(uint16_t)peakValue << 12`, store as `uint16_t`, write back. -/
def setPeak (P : Peer δ) (self : RFD77402 δ) (peakValue : Nat) : RFD77402 δ :=
  let r := readRegister16 P self RFD77402_CONFIGURE_A
  let configValue := r.1
  let configValue := configValue &&& 0x0FFF
  let configValue := (configValue ||| (peakValue <<< 12)) % 65536
  writeRegister16 P r.2 RFD77402_CONFIGURE_A configValue

/-- `getThreshold`: bits 8-11 of config register A. -/
def getThreshold (P : Peer δ) (self : RFD77402 δ) : Nat × RFD77402 δ :=
  let r := readRegister16 P self RFD77402_CONFIGURE_A
  (((r.1 >>> 8) &&& 0x0F) % 256, r.2)

/-- `setThreshold`: read config register A, clear bits 8-11 (`&= ~0x0F00`), or
in `thresholdValue << 8`, store as `uint16_t`, write back. -/
def setThreshold (P : Peer δ) (self : RFD77402 δ) (thresholdValue : Nat) : RFD77402 δ :=
  let r := readRegister16 P self RFD77402_CONFIGURE_A
  let configValue := r.1
  let configValue := configValue &&& 0xF0FF
  let configValue := (configValue ||| (thresholdValue <<< 8)) % 65536
  writeRegister16 P r.2 RFD77402_CONFIGURE_A configValue

/-- `getFrequency`: bits 12-15 of hardware config word 1. -/
def getFrequency (P : Peer δ) (self : RFD77402 δ) : Nat × RFD77402 δ :=
  let r := readRegister16 P self RFD77402_CONFIGURE_HW_1
  (((r.1 >>> 12) &&& 0x0F) % 256, r.2)

/-- `setFrequency`: read hardware config word 1, clear bits 12-15, or in
`thresholdValue << 12`, store as `uint16_t`, write back. -/
def setFrequency (P : Peer δ) (self : RFD77402 δ) (thresholdValue : Nat) : RFD77402 δ :=
  let r := readRegister16 P self RFD77402_CONFIGURE_HW_1
  let configValue := r.1
  let configValue := configValue &&& 0x0FFF
  let configValue := (configValue ||| (thresholdValue <<< 12)) % 65536
  writeRegister16 P r.2 RFD77402_CONFIGURE_HW_1 configValue

/-- `getMode`: the low six bits of the command register. -/
def getMode (P : Peer δ) (self : RFD77402 δ) : Nat × RFD77402 δ :=
  let r := readRegister P self RFD77402_COMMAND
  (r.1 &&& 0x3F, r.2)

/-- `getMailbox`: whatever is in the MCPU-to-host mailbox. -/
def getMailbox (P : Peer δ) (self : RFD77402 δ) : Nat × RFD77402 δ :=
  readRegister16 P self RFD77402_MCPU_TO_HOST_MAILBOX

/-- `reset`: write bit 6 to the command register, then `delay(100)`. -/
def reset (P : Peer δ) (self : RFD77402 δ) : RFD77402 δ :=
  (writeRegister P self RFD77402_COMMAND (1 <<< 6)).delay 100

/-- `getChipID`: the chip identity word. -/
def getChipID (P : Peer δ) (self : RFD77402 δ) : Nat × RFD77402 δ :=
  readRegister16 P self RFD77402_MOD_CHIP_ID

end RFD77402

/-! ## Devices used to exercise the driver -/

/-- The two data bytes of a 16-bit word in bus order: low byte, high byte. -/
def wordBytes (w : Nat) : List Nat := [w % 256, w / 256 % 256]

/-- A scripted device: its state is the stream of answers still to come.
Every read request consumes the next answer; writes are ignored. -/
def scripted : Peer (Nat → List Nat) where
  receive s _ _ := s
  respond s _ _ := (s 0, fun k => s (k + 1))

/-- A register file: an address pointer and one 16-bit word per address. -/
structure RegisterFile where
  pointer : Nat
  word : Nat → Nat

/-- A device in which a word read returns the last word written to that
address: the first byte of a write transaction sets the pointer, two data
bytes after it store a word, and a read request delivers the word under the
pointer, low byte first. -/
def registerFile : Peer RegisterFile where
  receive d _ bytes :=
    match bytes with
    | [] => d
    | a :: data =>
      { pointer := a
        word := match data with
          | [lo, hi] => Function.update d.word a (lo + 256 * hi)
          | _ => d.word }
  respond d _ quantity := ((wordBytes (d.word d.pointer)).take quantity, d)

/-- A driver object right after construction, attached to a device in state
`d`: all variables zero, empty buffers, nothing observed yet. -/
def attach (d : δ) : RFD77402 δ :=
  { distance := 0, validPixels := 0, confidenceValue := 0
    calibrationData := List.replicate 54 0
    _i2cPort := { txAddress := 0, txBuffer := [], rxBuffer := [], peer := d, trace := [] } }

open RFD77402

/-! ## Reading a trace -/

/-- A write transaction to register `reg`: the register address followed by
at least one data byte. -/
def Event.isWriteTo (reg : Nat) : Event → Bool
  | .transmit _ (r :: _ :: _) => r == reg
  | _ => false

/-- The start of a read of register `reg`: a transaction that carries the
register address and nothing else. -/
def Event.isReadOf (reg : Nat) : Event → Bool
  | .transmit _ [r] => r == reg
  | _ => false

/-- A read request. -/
def Event.isRequest : Event → Bool
  | .request _ _ _ => true
  | _ => false

/-- A call of `delay`. -/
def Event.isDelay : Event → Bool
  | .delay _ => true
  | _ => false

/-- The word that `readRegister16` returns when the device answers the
request with `answer`. -/
def wordRead (answer : List Nat) : Nat :=
  match answer.take 2 with
  | [lo, hi] => 256 * (hi % 256) + lo % 256
  | _ => 0xFFFF

/-- The byte that `readRegister` returns when the device answers the request
with `answer`. -/
def byteRead (answer : List Nat) : Nat :=
  match answer with
  | b :: _ => b % 256
  | [] => 0xFF

/-- Outcome of a poll loop with a budget of `n` polls, where `hit k` says
that the poll number `k` (counted from 0) sees the awaited value: the loop
succeeds iff one of the first `n` polls hits, it performs `k + 1` polls when
`k` is the first hit, and `n` polls when it fails. -/
def PollOutcome (hit : Nat → Prop) (n : Nat) (result : Bool) (polls : Nat) : Prop :=
  (result = true ↔ ∃ k, k < n ∧ hit k) ∧
    (∀ k, k < n → hit k → (∀ j, j < k → ¬ hit j) → polls = k + 1) ∧
    (result = false → polls = n)

/-- What a mode transition does on the bus. It first writes `opcode` to the
command register; after that it writes no register at all, and every bus
access is a read of register `reg`. With `hit k` saying that the read number
`k` (counted from 0) shows the awaited value, these reads follow
`PollOutcome` with a budget of 10. -/
def TransitionSpec (opcode reg : Nat) (hit : Nat → Prop) (before : List Event)
    (result : Bool) (after : List Event) : Prop :=
  ∃ t, after = before ++ Event.transmit RFD77402_ADDR [RFD77402_COMMAND, opcode] :: t ∧
    (∀ r, t.countP (Event.isWriteTo r) = 0) ∧
    (∀ r, r ≠ reg → t.countP (Event.isReadOf r) = 0) ∧
    t.countP Event.isRequest = t.countP (Event.isReadOf reg) ∧
    PollOutcome hit 10 result (t.countP (Event.isReadOf reg))

/-- A device whose reads all fail: it never delivers a byte. -/
def deadScript : Nat → List Nat := fun _ => []

/-- A device whose status register shows Off, then On, then Standby. -/
def statusScript : Nat → List Nat
  | 0 => wordBytes 0x0010
  | 1 => wordBytes 0x0018
  | _ => wordBytes 0x0000

/-- A device whose ICSR shows data ready, among other bits, at the third read. -/
def readyAtThirdScript : Nat → List Nat
  | 0 => [0x00]
  | 1 => [0xEF]
  | _ => [0x31]

/-- The events a data-ready poll can produce. -/
def IsDataReadyPollEvent (e : Event) : Prop :=
  e = Event.transmit RFD77402_ADDR [RFD77402_ICSR] ∨
    (∃ bs, e = Event.request RFD77402_ADDR 1 bs) ∨ e = Event.delay 10

/-- A device that reports not-ready once, then data ready, then the result
word `500 << 2` and the confidence word `0x1234`. -/
def validScript : Nat → List Nat
  | 0 => [0x00]
  | 1 => [0x10]
  | 2 => wordBytes (500 <<< 2)
  | _ => wordBytes 0x1234

/-- A device that reports data ready and then the result word `0x8000`. -/
def staleScript : Nat → List Nat
  | 0 => [0x10]
  | _ => wordBytes 0x8000

/-- A device that reports data ready and then a result word with error bits
`01` and all other bits set. -/
def pixelsScript : Nat → List Nat
  | 0 => [0x10]
  | _ => wordBytes 0xBFFF

/-- A device that reports data ready and then stops answering. -/
def silentAfterReadyScript : Nat → List Nat
  | 0 => [0x10]
  | _ => []

/-- A driver object holding an earlier reading, attached to a device in
state `d`. -/
def withReading (d : δ) : RFD77402 δ :=
  { attach d with distance := 1234, validPixels := 9, confidenceValue := 77 }

/-! ## Initialisation and calibration retrieval -/

/-- Interrupt-control bits of the header. The header writes them without
parentheses (`0 << 1`); in the only expression that uses them the operator
`|` binds weaker than `<<`, so each stands for its own value. -/
def INT_CLR_REG : Nat := 1
def INT_CLR : Nat := 0 <<< 1
def INT_PIN_TYPE : Nat := 1 <<< 2
def INT_LOHI : Nat := 0 <<< 3

/-- Interrupt-source bits of the header, under the same reading. -/
def INTSRC_DATA : Nat := 1
def INTSRC_M2H : Nat := 0 <<< 1
def INTSRC_H2M : Nat := 0 <<< 2
def INTSRC_RST : Nat := 0 <<< 3

/-- `Wire.begin()`: both buffers start empty. -/
def TwoWire.begin (w : TwoWire δ) : TwoWire δ :=
  { w with txBuffer := [], rxBuffer := [] }

/-- `Wire.setClock(frequency)`: the bus clock is not part of this model. -/
def TwoWire.setClock (w : TwoWire δ) (_frequency : Nat) : TwoWire δ := w

namespace RFD77402

/-- Lines 47-61 of `begin`: interrupt control and interrupt sources (each a
read, a mask and a write), the I2C configuration byte, and the first
power-management word `0x0500`. -/
def beginPowerOn (P : Peer δ) (self : RFD77402 δ) : RFD77402 δ :=
  let r := readRegister P self RFD77402_ICSR
  let setting := r.1
  let setting := setting &&& 0b11110000
  let setting := (setting ||| (INT_CLR_REG ||| INT_CLR ||| INT_PIN_TYPE ||| INT_LOHI)) % 256
  let self := writeRegister P r.2 RFD77402_ICSR setting
  let r := readRegister P self RFD77402_INTERRUPTS
  let setting := r.1
  let setting := setting &&& 0b00000000
  let setting := (setting ||| (INTSRC_DATA ||| INTSRC_M2H ||| INTSRC_H2M ||| INTSRC_RST)) % 256
  let self := writeRegister P r.2 RFD77402_INTERRUPTS setting
  let self := writeRegister P self RFD77402_CONFIGURE_I2C 0x65
  writeRegister16 P self RFD77402_CONFIGURE_PMU 0x0500

/-- Lines 76-85 of `begin`: peak, threshold and the five fixed configuration
words. -/
def beginToF (P : Peer δ) (self : RFD77402 δ) : RFD77402 δ :=
  let self := setPeak P self 0x0E
  let self := setThreshold P self 0x01
  let self := writeRegister16 P self RFD77402_CONFIGURE_B 0x10FF
  let self := writeRegister16 P self RFD77402_CONFIGURE_HW_0 0x07D0
  let self := writeRegister16 P self RFD77402_CONFIGURE_HW_1 0x5008
  let self := writeRegister16 P self RFD77402_CONFIGURE_HW_2 0xA041
  writeRegister16 P self RFD77402_CONFIGURE_HW_3 0x45D4

/-- `begin`: take the port, check the chip identity, then the fixed
sequence of mode transitions and configuration writes; every failed
transition returns false on the spot. -/
def begin (P : Peer δ) (self : RFD77402 δ) (wirePort : TwoWire δ) (i2cSpeed : Nat) :
    Bool × RFD77402 δ :=
  let self := { self with _i2cPort := wirePort }
  let self := { self with _i2cPort := self._i2cPort.begin }
  let self := { self with _i2cPort := self._i2cPort.setClock i2cSpeed }
  let id := getChipID P self
  if id.1 < 0xAD00 then (false, id.2)
  else
    let r := goToStandbyMode P id.2
    if r.1 = false then (false, r.2)
    else
      let self := beginPowerOn P r.2
      let r := goToOffMode P self
      if r.1 = false then (false, r.2)
      else
        let self := writeRegister16 P r.2 RFD77402_CONFIGURE_PMU 0x0600
        let r := goToOnMode P self
        if r.1 = false then (false, r.2)
        else
          let self := beginToF P r.2
          let r := goToStandbyMode P self
          if r.1 = false then (false, r.2)
          else
            let r := goToStandbyMode P r.2
            if r.1 = false then (false, r.2)
            else
              let self := writeRegister16 P r.2 RFD77402_CONFIGURE_PMU 0x0500
              let r := goToOffMode P self
              if r.1 = false then (false, r.2)
              else
                let self := writeRegister16 P r.2 RFD77402_CONFIGURE_PMU 0x0600
                let r := goToOnMode P self
                if r.1 = false then (false, r.2)
                else (true, r.2)

/-- The first `while (1)` of `getCalibrationData`, entered with the counter
at `messages`: leave with true (the `break`) when ICSR bit 5 is clear;
otherwise read and drop the mailbox word, give up with false when
`messages++ > 27`, else `delay(10)` and go round again. The counter never
passes 28, so the `uint8_t` does not wrap. -/
def drainMailbox (P : Peer δ) (messages : Nat) (self : RFD77402 δ) : Bool × RFD77402 δ :=
  let r := readRegister P self RFD77402_ICSR
  if r.1 &&& (1 <<< 5) = 0 then (true, r.2)
  else
    let m := getMailbox P r.2
    if messages > 27 then (false, m.2)
    else drainMailbox P (messages + 1) (m.2.delay 10)
termination_by 28 - messages

/-- The inner `while (1)` of `getCalibrationData`, entered with the counter
at `x`: leave with true (the `break`) when ICSR bit 5 is set; otherwise give
up with false when `x++ > 10`, else `delay(10)` and go round again. -/
def waitForMessage (P : Peer δ) (x : Nat) (self : RFD77402 δ) : Bool × RFD77402 δ :=
  let r := readRegister P self RFD77402_ICSR
  let icsr := r.1
  if icsr &&& (1 <<< 5) ≠ 0 then (true, r.2)
  else if x > 10 then (false, r.2)
  else waitForMessage P (x + 1) (r.2.delay 10)
termination_by 11 - x

/-- The `for (message = 0; message < 27; message++)` loop of
`getCalibrationData`, entered at index `message`: wait for a mailbox word
(false on timeout), read it, store its high byte at `message * 2` and its low
byte at `message * 2 + 1`. True means the loop ran to its end. -/
def receiveMessages (P : Peer δ) (message : Nat) (self : RFD77402 δ) : Bool × RFD77402 δ :=
  if message < 27 then
    let w := waitForMessage P 0 self
    if w.1 = false then (false, w.2)
    else
      let m := getMailbox P w.2
      let incoming := m.1
      let self := m.2
      let self := { self with
        calibrationData := self.calibrationData.set (message * 2) ((incoming >>> 8) % 256) }
      let self := { self with
        calibrationData := self.calibrationData.set (message * 2 + 1) ((incoming &&& 0xFF) % 256) }
      receiveMessages P (message + 1) self
  else (true, self)
termination_by 27 - message

/-- `getCalibrationData`. Every `return (false)` of the source gives
`some false`. After the 27 messages the source reaches the closing brace of
the function without a `return`, which leaves the returned value undefined:
that exit gives `none`. -/
def getCalibrationData (P : Peer δ) (self : RFD77402 δ) : Option Bool × RFD77402 δ :=
  let r := goToOnMode P self
  if r.1 = false then (some false, r.2)
  else
    let d := drainMailbox P 0 r.2
    if d.1 = false then (some false, d.2)
    else
      let self := writeRegister16 P d.2 RFD77402_HOST_TO_MCPU_MAILBOX 0x0006
      let m := receiveMessages P 0 self
      if m.1 = false then (some false, m.2)
      else (none, m.2)

end RFD77402

/-- The data bytes of every write transaction to register `reg` in a trace,
in the order they were sent. -/
def writesTo (reg : Nat) : List Event → List (List Nat)
  | [] => []
  | Event.transmit _ (r :: d :: ds) :: rest =>
    if r = reg then (d :: ds) :: writesTo reg rest else writesTo reg rest
  | _ :: rest => writesTo reg rest

/-- A device on which `begin` succeeds at every step: chip identity `0xAD01`,
Standby, the two interrupt registers, Off, On, config register A twice,
Standby twice, Off, On. -/
def beginScript : Nat → List Nat
  | 0 => wordBytes 0xAD01
  | 1 => wordBytes 0x0000
  | 2 => [0xF0]
  | 3 => [0xFF]
  | 4 => wordBytes 0x0010
  | 5 => wordBytes 0x0018
  | 6 => wordBytes 0x1234
  | 7 => wordBytes 0xE234
  | 8 => wordBytes 0x0000
  | 9 => wordBytes 0x0000
  | 10 => wordBytes 0x0010
  | _ => wordBytes 0x0018

/-- A device whose chip identity reads `0xACFF`. -/
def wrongChipScript : Nat → List Nat := fun _ => wordBytes 0xACFF

/-- What `answers.length` polls of register `reg` that all miss put on the
bus: for each poll the register address, the read request with the bytes that
arrived, and then a `delay(10)`. -/
def failedPolls (reg quantity : Nat) : List (List Nat) → List Event
  | [] => []
  | bs :: rest =>
    Event.transmit RFD77402_ADDR [reg] :: Event.request RFD77402_ADDR quantity bs ::
      Event.delay 10 :: failedPolls reg quantity rest

/-- A device whose ICSR never shows data ready. -/
def neverReadyScript : Nat → List Nat := fun _ => [0xEF]

/-- Number of reads of the MCPU-to-host mailbox register in a trace. -/
def mailboxReads (t : List Event) : Nat :=
  t.countP (Event.isReadOf RFD77402_MCPU_TO_HOST_MAILBOX)

/-- A device on which calibration retrieval goes through: On at the first
status read, no stale mailbox message, and then for every message an ICSR
byte with bit 5 set followed by the mailbox word; the answer number `i`
that is a mailbox word carries the byte `i` twice. -/
def calScript (i : Nat) : List Nat :=
  if i = 0 then wordBytes 0x0018
  else if i = 1 then [0x00]
  else if i % 2 = 0 then [0x20]
  else wordBytes (0x0101 * i)

/-- A device that reaches On, has no stale mailbox message, delivers the one
message `0xABCD` and then never raises ICSR bit 5 again. -/
def timeoutScript (i : Nat) : List Nat :=
  if i = 0 then wordBytes 0x0018
  else if i = 1 then [0x00]
  else if i = 2 then [0x20]
  else if i = 3 then wordBytes 0xABCD
  else [0x00]

/-- Number of reads of the interrupt/status register in a trace. -/
def icsrReads (t : List Event) : Nat :=
  t.countP (Event.isReadOf RFD77402_ICSR)

/-- A device that reaches On and then shows ICSR bit 5 set at every read. -/
def floodScript (i : Nat) : List Nat :=
  if i = 0 then wordBytes 0x0018 else [0x20, 0x00]

/-! # Theorems -/

/-! ## Arithmetic of the bit fields -/

theorem and_7FFF (r : Nat) : r &&& 0x7FFF = r % 32768 :=
  Nat.and_pow_two_sub_one_eq_mod r 15

theorem errorBits (r : Nat) : (r >>> 13) &&& 0x03 = r / 8192 % 4 := by
  rw [Nat.shiftRight_eq_div_pow]
  exact Nat.and_pow_two_sub_one_eq_mod _ 2

theorem and_0F_mod (x : Nat) : (x &&& 0x0F) % 256 = x &&& 0x0F :=
  Nat.mod_eq_of_lt (lt_of_le_of_lt Nat.and_le_right (by norm_num))

theorem and_03_mod (x : Nat) : (x &&& 0x03) % 256 = x &&& 0x03 :=
  Nat.mod_eq_of_lt (lt_of_le_of_lt Nat.and_le_right (by norm_num))

/-! ## Register accesses: what they leave alone and what they put on the bus -/

theorem readRegister16_port (P : Peer δ) (self : RFD77402 δ) (addr d vp cv : Nat)
    (cal : List Nat) :
    readRegister16 P ⟨d, vp, cv, cal, self._i2cPort⟩ addr =
      ((readRegister16 P self addr).1,
        ⟨d, vp, cv, cal, (readRegister16 P self addr).2._i2cPort⟩) := by
  simp only [readRegister16]
  split <;> rfl

theorem readRegister16_frame (P : Peer δ) (self : RFD77402 δ) (addr : Nat) :
    (readRegister16 P self addr).2 =
      { self with _i2cPort := (readRegister16 P self addr).2._i2cPort } := by
  simp only [readRegister16]
  split <;> rfl

theorem readRegister_frame (P : Peer δ) (self : RFD77402 δ) (addr : Nat) :
    (readRegister P self addr).2 =
      { self with _i2cPort := (readRegister P self addr).2._i2cPort } := by
  simp only [readRegister]
  split <;> rfl

theorem readRegister16_lt (P : Peer δ) (self : RFD77402 δ) (addr : Nat) :
    (readRegister16 P self addr).1 < 65536 := by
  simp only [readRegister16]
  split
  · norm_num
  · exact Nat.mod_lt _ (by norm_num)

theorem read_trace (w : TwoWire δ) : w.read.2.trace = w.trace := by
  unfold TwoWire.read
  split <;> rfl

theorem readRegister16_trace (P : Peer δ) (self : RFD77402 δ) (addr : Nat) :
    ∃ bs, (readRegister16 P self addr).2._i2cPort.trace =
      self._i2cPort.trace ++
        [Event.transmit RFD77402_ADDR [addr % 256], Event.request RFD77402_ADDR 2 bs] := by
  simp only [readRegister16]
  split
  · exact ⟨_, by simp [TwoWire.requestFrom, TwoWire.endTransmission, TwoWire.write,
      TwoWire.beginTransmission]; rfl⟩
  · exact ⟨_, by simp [read_trace, TwoWire.requestFrom, TwoWire.endTransmission, TwoWire.write,
      TwoWire.beginTransmission]; rfl⟩

theorem readRegister_trace (P : Peer δ) (self : RFD77402 δ) (addr : Nat) :
    ∃ bs, (readRegister P self addr).2._i2cPort.trace =
      self._i2cPort.trace ++
        [Event.transmit RFD77402_ADDR [addr % 256], Event.request RFD77402_ADDR 1 bs] := by
  simp only [readRegister]
  split
  · exact ⟨_, by simp [read_trace, TwoWire.requestFrom, TwoWire.endTransmission, TwoWire.write,
      TwoWire.beginTransmission]; rfl⟩
  · exact ⟨_, by simp [TwoWire.requestFrom, TwoWire.endTransmission, TwoWire.write,
      TwoWire.beginTransmission]; rfl⟩

theorem writeRegister_trace (P : Peer δ) (self : RFD77402 δ) (addr val : Nat) :
    (writeRegister P self addr val)._i2cPort.trace =
      self._i2cPort.trace ++ [Event.transmit RFD77402_ADDR [addr % 256, val % 256]] := by
  simp [writeRegister, TwoWire.endTransmission, TwoWire.write, TwoWire.beginTransmission]

/-! ## The data-ready poll for an arbitrary device -/

theorem pollDataReady_frame (P : Peer δ) (n : Nat) (self : RFD77402 δ) :
    (pollDataReady P n self).2 =
      { self with _i2cPort := (pollDataReady P n self).2._i2cPort } := by
  induction n generalizing self with
  | zero => rfl
  | succ n ih =>
    simp only [pollDataReady]
    split
    · exact readRegister_frame P self RFD77402_ICSR
    · rw [ih]
      simp only [delay]
      rw [readRegister_frame]

theorem pollDataReady_trace (P : Peer δ) (n : Nat) (self : RFD77402 δ) :
    ∃ t, (pollDataReady P n self).2._i2cPort.trace = self._i2cPort.trace ++ t ∧
      ∀ e ∈ t, IsDataReadyPollEvent e := by
  induction n generalizing self with
  | zero => exact ⟨[], by simp [pollDataReady]⟩
  | succ n ih =>
    obtain ⟨bs, hbs⟩ := readRegister_trace P self RFD77402_ICSR
    simp only [pollDataReady]
    split
    · refine ⟨_, hbs, ?_⟩
      intro e he
      simp only [List.mem_cons, List.mem_singleton, List.not_mem_nil, or_false] at he
      rcases he with rfl | rfl
      · exact Or.inl rfl
      · exact Or.inr (Or.inl ⟨bs, rfl⟩)
    · obtain ⟨t, ht, hev⟩ := ih ((readRegister P self RFD77402_ICSR).2.delay 10)
      refine ⟨Event.transmit RFD77402_ADDR [RFD77402_ICSR % 256] ::
        Event.request RFD77402_ADDR 1 bs :: Event.delay 10 :: t, ?_, ?_⟩
      · rw [ht]
        simp only [delay, hbs, List.append_assoc, List.cons_append, List.nil_append]
      · intro e he
        simp only [List.mem_cons] at he
        rcases he with rfl | rfl | rfl | he
        · exact Or.inl rfl
        · exact Or.inr (Or.inl ⟨bs, rfl⟩)
        · exact Or.inr (Or.inr rfl)
        · exact hev e he

theorem goToMeasurementMode_frame (P : Peer δ) (self : RFD77402 δ) :
    (goToMeasurementMode P self).2 =
      { self with _i2cPort := (goToMeasurementMode P self).2._i2cPort } := by
  simp only [goToMeasurementMode]
  rw [pollDataReady_frame]
  rfl

theorem goToMeasurementMode_trace (P : Peer δ) (self : RFD77402 δ) :
    ∃ t, (goToMeasurementMode P self).2._i2cPort.trace =
        self._i2cPort.trace ++ Event.transmit RFD77402_ADDR [RFD77402_COMMAND, 0x81] :: t ∧
      ∀ e ∈ t, IsDataReadyPollEvent e := by
  obtain ⟨t, ht, hev⟩ := pollDataReady_trace P 10 (writeRegister P self RFD77402_COMMAND 0x81)
  refine ⟨t, ?_, hev⟩
  simp only [goToMeasurementMode, ht, writeRegister_trace, List.append_assoc, List.cons_append,
    List.nil_append]
  rfl

/-- Up to and including the read of the result register, a measurement
call keeps the driver's variables and puts no access to the confidence
register on the bus. -/
theorem result_read_frame (P : Peer δ) (self s1 s2 : RFD77402 δ) (b : Bool) (r : Nat)
    (hready : goToMeasurementMode P self = (b, s1))
    (hres : readRegister16 P s1 RFD77402_RESULT = (r, s2)) :
    s2.distance = self.distance ∧ s2.validPixels = self.validPixels ∧
      s2.confidenceValue = self.confidenceValue ∧
      s2.calibrationData = self.calibrationData ∧
      ∃ t, s2._i2cPort.trace = self._i2cPort.trace ++ t ∧
        ∀ a bs, Event.transmit a (RFD77402_RESULT_CONFIDENCE :: bs) ∉ t := by
  have h1 := goToMeasurementMode_frame P self
  have h2 := readRegister16_frame P s1 RFD77402_RESULT
  obtain ⟨t, ht, hev⟩ := goToMeasurementMode_trace P self
  obtain ⟨bs, hbs⟩ := readRegister16_trace P s1 RFD77402_RESULT
  rw [hready] at h1 ht
  rw [hres] at h2 hbs
  simp only at h1 h2 ht hbs
  refine ⟨by rw [h2, h1], by rw [h2, h1], by rw [h2, h1], by rw [h2, h1], ?_⟩
  refine ⟨Event.transmit RFD77402_ADDR [RFD77402_COMMAND, 0x81] :: t ++
    [Event.transmit RFD77402_ADDR [RFD77402_RESULT % 256], Event.request RFD77402_ADDR 2 bs],
    ?_, ?_⟩
  · rw [hbs, ht]
    simp only [List.append_assoc, List.cons_append]
  · intro a cs hmem
    simp only [List.mem_append, List.mem_cons, List.mem_singleton, List.not_mem_nil,
      or_false] at hmem
    rcases hmem with (h | h) | h | h
    · injection h with _ h
      injection h with h _
      exact absurd h (by decide)
    · rcases hev _ h with h | ⟨_, h⟩ | h
      · injection h with _ h
        injection h with h _
        exact absurd h (by decide)
      · exact Event.noConfusion h
      · exact Event.noConfusion h
    · injection h with _ h
      injection h with h _
      exact absurd h (by decide)
    · exact Event.noConfusion h

/-- C1. When data-ready is observed and the result and confidence registers
return `r` and `c`, where the lower 15 bits of `r` are not all zero and its
error bits 13-14 are `00`, `takeMeasurement` returns `CODE_VALID_DATA` and
stores distance `(r >> 2) & 0x07FF`, valid pixels `c & 0x0F` and confidence
`(c >> 4) & 0x07FF`; with `r = 500 << 2` the distance is 500. -/
theorem takeMeasurement_valid (P : Peer δ) (self s1 s2 s3 : RFD77402 δ) (r c : Nat)
    (hready : goToMeasurementMode P self = (true, s1))
    (hres : readRegister16 P s1 RFD77402_RESULT = (r, s2))
    (hconf : readRegister16 P s2 RFD77402_RESULT_CONFIDENCE = (c, s3))
    (hnew : r &&& 0x7FFF ≠ 0) (herr : (r >>> 13) &&& 0x03 = 0) :
    takeMeasurement P self =
        (CODE_VALID_DATA,
          { s3 with
            distance := (r >>> 2) &&& 0x07FF
            validPixels := c &&& 0x0F
            confidenceValue := (c >>> 4) &&& 0x07FF }) ∧
      CODE_VALID_DATA = 0 ∧
      (r = 500 <<< 2 → (takeMeasurement P self).2.getDistance = 500) := by
  have h3 := readRegister16_port P s2 RFD77402_RESULT_CONFIDENCE
    ((r >>> 2) &&& 0x07FF) s2.validPixels s2.confidenceValue s2.calibrationData
  have h4 := readRegister16_frame P s2 RFD77402_RESULT_CONFIDENCE
  rw [hconf] at h3 h4
  simp only at h3 h4
  have key : takeMeasurement P self =
      (CODE_VALID_DATA,
        { s3 with
          distance := (r >>> 2) &&& 0x07FF
          validPixels := c &&& 0x0F
          confidenceValue := (c >>> 4) &&& 0x07FF }) := by
    simp only [takeMeasurement, hready, hres]
    simp [hnew, herr, h3, CODE_VALID_DATA, and_0F_mod]
    rw [h4]
  refine ⟨key, rfl, ?_⟩
  intro hr
  rw [key, hr]
  rfl

theorem takeMeasurement_valid_witness :
    (takeMeasurement scripted (attach validScript)).1 = 0 ∧
      (takeMeasurement scripted (attach validScript)).2.distance = 500 ∧
      (takeMeasurement scripted (attach validScript)).2.validPixels = 4 ∧
      (takeMeasurement scripted (attach validScript)).2.confidenceValue = 0x123 := by
  have h := (takeMeasurement_valid scripted (attach validScript)
    (goToMeasurementMode scripted (attach validScript)).2
    (readRegister16 scripted (goToMeasurementMode scripted (attach validScript)).2
      RFD77402_RESULT).2
    (readRegister16 scripted
      (readRegister16 scripted (goToMeasurementMode scripted (attach validScript)).2
        RFD77402_RESULT).2 RFD77402_RESULT_CONFIDENCE).2
    (500 <<< 2) 0x1234 rfl rfl rfl (by decide) (by decide)).1
  rw [h]
  exact ⟨rfl, rfl, rfl, rfl⟩

/-- C2. When data-ready is observed and the result register returns a word
whose lower 15 bits are all zero (so the word is `0x0000` or `0x8000`),
`takeMeasurement` returns `CODE_FAILED_NOT_NEW` (4), which is none of the
codes 0, 1, 2, 3; the call ends with the read of the result register, so the
confidence register is not accessed, and distance, valid pixels and
confidence keep their pre-call values. -/
theorem takeMeasurement_not_new (P : Peer δ) (self s1 s2 : RFD77402 δ) (r : Nat)
    (hready : goToMeasurementMode P self = (true, s1))
    (hres : readRegister16 P s1 RFD77402_RESULT = (r, s2))
    (hstale : r &&& 0x7FFF = 0) :
    (r = 0x0000 ∨ r = 0x8000) ∧
      takeMeasurement P self = (CODE_FAILED_NOT_NEW, s2) ∧
      CODE_FAILED_NOT_NEW = 4 ∧
      CODE_FAILED_NOT_NEW ∉
        [CODE_VALID_DATA, CODE_FAILED_PIXELS, CODE_FAILED_SIGNAL, CODE_FAILED_SATURATED] ∧
      (∃ t, (takeMeasurement P self).2._i2cPort.trace = self._i2cPort.trace ++ t ∧
        ∀ a bs, Event.transmit a (RFD77402_RESULT_CONFIDENCE :: bs) ∉ t) ∧
      (takeMeasurement P self).2.distance = self.distance ∧
      (takeMeasurement P self).2.validPixels = self.validPixels ∧
      (takeMeasurement P self).2.confidenceValue = self.confidenceValue := by
  have key : takeMeasurement P self = (CODE_FAILED_NOT_NEW, s2) := by
    simp only [takeMeasurement, hready, hres]
    simp [hstale]
  obtain ⟨hd, hv, hc, _, ht⟩ := result_read_frame P self s1 s2 true r hready hres
  have hlt : r < 65536 := by
    have := readRegister16_lt P s1 RFD77402_RESULT
    rw [hres] at this
    exact this
  refine ⟨?_, key, rfl, by decide, ?_, ?_, ?_, ?_⟩
  · rw [and_7FFF] at hstale
    omega
  · rw [key]; exact ht
  · rw [key]; exact hd
  · rw [key]; exact hv
  · rw [key]; exact hc

theorem takeMeasurement_not_new_witness :
    (takeMeasurement scripted (withReading staleScript)).1 = 4 ∧
      (takeMeasurement scripted (withReading staleScript)).2.distance = 1234 ∧
      (takeMeasurement scripted (withReading staleScript)).2.validPixels = 9 ∧
      (takeMeasurement scripted (withReading staleScript)).2.confidenceValue = 77 := by
  have h := takeMeasurement_not_new scripted (withReading staleScript)
    (goToMeasurementMode scripted (withReading staleScript)).2
    (readRegister16 scripted (goToMeasurementMode scripted (withReading staleScript)).2
      RFD77402_RESULT).2
    0x8000 rfl rfl (by decide)
  obtain ⟨_, h1, _, _, _, h2, h3, h4⟩ := h
  exact ⟨by rw [h1]; rfl, h2, h3, h4⟩

/-- C3. When data-ready is observed and the result register returns a word
whose error bits 13-14 hold a non-zero code `e`, `takeMeasurement` returns
exactly `e`, which is `CODE_FAILED_PIXELS`, `CODE_FAILED_SIGNAL` or
`CODE_FAILED_SATURATED`, and distance, valid pixels and confidence keep
their pre-call values, whatever those values and the other result bits are. -/
theorem takeMeasurement_sensor_error (P : Peer δ) (self s1 s2 : RFD77402 δ) (r : Nat)
    (hready : goToMeasurementMode P self = (true, s1))
    (hres : readRegister16 P s1 RFD77402_RESULT = (r, s2))
    (herr : (r >>> 13) &&& 0x03 ≠ 0) :
    takeMeasurement P self = ((r >>> 13) &&& 0x03, s2) ∧
      ((r >>> 13) &&& 0x03 = CODE_FAILED_PIXELS ∨ (r >>> 13) &&& 0x03 = CODE_FAILED_SIGNAL ∨
        (r >>> 13) &&& 0x03 = CODE_FAILED_SATURATED) ∧
      (takeMeasurement P self).2.distance = self.distance ∧
      (takeMeasurement P self).2.validPixels = self.validPixels ∧
      (takeMeasurement P self).2.confidenceValue = self.confidenceValue := by
  have hnew : r &&& 0x7FFF ≠ 0 := by
    rw [errorBits] at herr
    rw [and_7FFF]
    omega
  have key : takeMeasurement P self = ((r >>> 13) &&& 0x03, s2) := by
    simp only [takeMeasurement, hready, hres]
    simp [hnew, herr, and_03_mod]
  obtain ⟨hd, hv, hc, _, _⟩ := result_read_frame P self s1 s2 true r hready hres
  refine ⟨key, ?_, by rw [key]; exact hd, by rw [key]; exact hv, by rw [key]; exact hc⟩
  rw [errorBits] at herr ⊢
  simp only [CODE_FAILED_PIXELS, CODE_FAILED_SIGNAL, CODE_FAILED_SATURATED]
  omega

theorem takeMeasurement_sensor_error_witness :
    (takeMeasurement scripted (withReading pixelsScript)).1 = CODE_FAILED_PIXELS ∧
      (takeMeasurement scripted (withReading pixelsScript)).2.distance = 1234 ∧
      (takeMeasurement scripted (withReading pixelsScript)).2.validPixels = 9 ∧
      (takeMeasurement scripted (withReading pixelsScript)).2.confidenceValue = 77 := by
  have h := takeMeasurement_sensor_error scripted (withReading pixelsScript)
    (goToMeasurementMode scripted (withReading pixelsScript)).2
    (readRegister16 scripted (goToMeasurementMode scripted (withReading pixelsScript)).2
      RFD77402_RESULT).2
    0xBFFF rfl rfl (by decide)
  obtain ⟨h1, _, h2, h3, h4⟩ := h
  exact ⟨by rw [h1]; rfl, h2, h3, h4⟩

theorem testBit_0FFF (i : Nat) : (0x0FFF : Nat).testBit i = decide (i < 12) :=
  Nat.testBit_two_pow_sub_one 12 i

theorem testBit_F0FF (i : Nat) :
    (0xF0FF : Nat).testBit i = decide (i < 8 ∨ (12 ≤ i ∧ i < 16)) := by
  by_cases h : i < 16
  · interval_cases i <;> rfl
  · have h1 : (0xF0FF : Nat) < 2 ^ i :=
      lt_of_lt_of_le (by norm_num) (Nat.pow_le_pow_right (by norm_num) (not_lt.mp h))
    rw [Nat.testBit_lt_two_pow h1]
    symm
    rw [decide_eq_false_iff_not]
    omega

theorem testBit_mod_65536 (x i : Nat) :
    (x % 65536).testBit i = (decide (i < 16) && x.testBit i) :=
  Nat.testBit_mod_two_pow x 16 i

theorem testBit_of_lt_16 (v i : Nat) (hv : v < 16) (hi : ¬ i < 4) : v.testBit i = false :=
  Nat.testBit_lt_two_pow (lt_of_lt_of_le hv (by
    calc 16 = 2 ^ 4 := by norm_num
      _ ≤ 2 ^ i := Nat.pow_le_pow_right (by norm_num) (by omega)))

/-- Bits of the word that `setPeak` and `setFrequency` compute. -/
theorem field12_bits (pre v i : Nat) :
    (((pre &&& 0x0FFF) ||| (v <<< 12)) % 65536).testBit i =
      if i < 12 then pre.testBit i else if i < 16 then v.testBit (i - 12) else false := by
  rw [testBit_mod_65536, Nat.testBit_or, Nat.testBit_and, testBit_0FFF, Nat.testBit_shiftLeft]
  by_cases h1 : i < 12
  · have h2 : i < 16 := by omega
    have h3 : ¬ i ≥ 12 := by omega
    simp [h1, h2, h3]
  · by_cases h2 : i < 16
    · have h3 : i ≥ 12 := by omega
      simp [h1, h2, h3]
    · simp [h1, h2]

/-- Bits of the word that `setThreshold` computes. -/
theorem field8_bits (pre v i : Nat) :
    (((pre &&& 0xF0FF) ||| (v <<< 8)) % 65536).testBit i =
      if i < 8 then pre.testBit i
      else if i < 12 then v.testBit (i - 8)
      else if i < 16 then (pre.testBit i || v.testBit (i - 8))
      else false := by
  rw [testBit_mod_65536, Nat.testBit_or, Nat.testBit_and, testBit_F0FF, Nat.testBit_shiftLeft]
  by_cases h1 : i < 8
  · have h2 : i < 16 := by omega
    have h3 : ¬ i ≥ 8 := by omega
    simp [h1, h2, h3]
  · have h0 : i ≥ 8 := by omega
    by_cases h2 : i < 12
    · have h3 : i < 16 := by omega
      have h4 : ¬ 12 ≤ i := by omega
      simp [h0, h1, h2, h3, h4]
    · have h4 : 12 ≤ i := by omega
      by_cases h3 : i < 16
      · simp [h0, h1, h2, h3, h4]
      · simp [h1, h2, h3]

theorem writeRegister16_trace (P : Peer δ) (self : RFD77402 δ) (addr val : Nat) :
    (writeRegister16 P self addr val)._i2cPort.trace =
      self._i2cPort.trace ++ [Event.transmit RFD77402_ADDR (addr % 256 :: wordBytes val)] := by
  have h1 : (val &&& 0xFF) % 256 = val % 256 := by
    have : val &&& 0xFF = val % 256 := Nat.and_pow_two_sub_one_eq_mod val 8
    rw [this, Nat.mod_mod]
  have h2 : (val >>> 8) % 256 = val / 256 % 256 := by
    rw [Nat.shiftRight_eq_div_pow]
  simp [writeRegister16, TwoWire.endTransmission, TwoWire.write, TwoWire.beginTransmission,
    wordBytes, h1, h2]

theorem toUint8_natCast (b : Nat) : toUint8 (b : Int) = b % 256 := by
  unfold toUint8
  omega

theorem toUint8_natCast_mod (b : Nat) : toUint8 ((b : Int) % 256) = b % 256 := by
  unfold toUint8
  omega

/-- Two bytes put together low byte first give back the 16-bit word. -/
theorem word_of_bytes (lo hi : Nat) (hlo : lo < 256) (hhi : hi < 256) :
    ((hi <<< 8) ||| lo) % 65536 = 256 * hi + lo := by
  have h : 2 ^ 8 * hi + lo = 2 ^ 8 * hi ||| lo := Nat.mul_add_lt_is_or (by omega) hi
  rw [Nat.shiftLeft_eq, Nat.mul_comm hi, ← h]
  omega

/-- What `readRegister16` returns when the device delivers exactly the two
bytes `lo`, `hi`. -/
theorem readRegister16_of_two (P : Peer δ) (self : RFD77402 δ) (addr lo hi : Nat)
    (h : (P.respond (P.receive self._i2cPort.peer RFD77402_ADDR [addr % 256])
      RFD77402_ADDR 2).1 = [lo, hi]) :
    (readRegister16 P self addr).1 = 256 * (hi % 256) + lo % 256 := by
  simp [readRegister16, TwoWire.requestFrom, TwoWire.endTransmission, TwoWire.write,
    TwoWire.beginTransmission, TwoWire.available, TwoWire.read, h, toUint8_natCast,
    toUint8_natCast_mod]
  exact word_of_bytes _ _ (Nat.mod_lt _ (by norm_num)) (Nat.mod_lt _ (by norm_num))

/-- What `readRegister16` returns when fewer than two bytes arrive. -/
theorem readRegister16_of_short (P : Peer δ) (self : RFD77402 δ) (addr : Nat)
    (h : (P.respond (P.receive self._i2cPort.peer RFD77402_ADDR [addr % 256])
      RFD77402_ADDR 2).1.length < 2) :
    (readRegister16 P self addr).1 = 0xFFFF := by
  have h2 : min 2 (P.respond (P.receive self._i2cPort.peer RFD77402_ADDR [addr % 256])
      RFD77402_ADDR 2).1.length ≠ 2 := by omega
  simp [readRegister16, TwoWire.requestFrom, TwoWire.endTransmission, TwoWire.write,
    TwoWire.beginTransmission, TwoWire.available, h2]

/-- A failed read of the result register is decoded like a result word. -/
theorem takeMeasurement_of_short_read (P : Peer δ) (self s1 : RFD77402 δ)
    (hready : goToMeasurementMode P self = (true, s1))
    (hshort : (P.respond (P.receive s1._i2cPort.peer RFD77402_ADDR [RFD77402_RESULT % 256])
      RFD77402_ADDR 2).1.length < 2) :
    (takeMeasurement P self).1 = CODE_FAILED_SATURATED := by
  have h := readRegister16_of_short P s1 RFD77402_RESULT hshort
  simp only [takeMeasurement, hready]
  simp [h, CODE_FAILED_SATURATED]
  rfl

/-- C4. Failing input: the device reports data ready and then delivers no
byte for the read of the result register. The word read is the sentinel
`0xFFFF`, and `takeMeasurement` returns 3, `CODE_FAILED_SATURATED`, one of the
sensor-measured fault codes. -/
theorem takeMeasurement_short_result_read :
    (goToMeasurementMode scripted (attach silentAfterReadyScript)).1 = true ∧
      (readRegister16 scripted (goToMeasurementMode scripted (attach silentAfterReadyScript)).2
        RFD77402_RESULT).1 = 0xFFFF ∧
      (takeMeasurement scripted (attach silentAfterReadyScript)).1 = CODE_FAILED_SATURATED ∧
      CODE_FAILED_SATURATED = 3 := by
  refine ⟨rfl, rfl, ?_, rfl⟩
  exact takeMeasurement_of_short_read scripted (attach silentAfterReadyScript)
    (goToMeasurementMode scripted (attach silentAfterReadyScript)).2 rfl (by decide)

/-- C5, as stated, fails: with pre-value `0x0000` in config register A and
the 8-bit argument `0x10`, `setThreshold` writes back the word `0x1000`, whose
bit 12 (in the peak field) differs from the pre-value's. -/
theorem setThreshold_overwrites_peak :
    (readRegister16 scripted (attach (fun _ => wordBytes 0x0000)) RFD77402_CONFIGURE_A).1 = 0x0000 ∧
      (setThreshold scripted (attach (fun _ => wordBytes 0x0000)) 0x10)._i2cPort.trace =
        [Event.transmit RFD77402_ADDR [RFD77402_CONFIGURE_A],
         Event.request RFD77402_ADDR 2 (wordBytes 0x0000),
         Event.transmit RFD77402_ADDR (RFD77402_CONFIGURE_A :: wordBytes 0x1000)] ∧
      (0x1000 : Nat).testBit 12 ≠ (0x0000 : Nat).testBit 12 := by
  decide

/-- C5, amended. When config register A reads `pre`, the word `w` that
`setThreshold` writes back has bits 0-7 of `pre`, for every argument; when
the argument is a 4-bit value (below 16), bits 12-15 of `w` are those of
`pre` as well, so `w` differs from `pre` only inside bits 8-11. -/
theorem setThreshold_word (P : Peer δ) (self s1 : RFD77402 δ) (pre thresholdValue : Nat)
    (hpre : readRegister16 P self RFD77402_CONFIGURE_A = (pre, s1)) :
    ∃ w, w < 65536 ∧
      (setThreshold P self thresholdValue)._i2cPort.trace =
        s1._i2cPort.trace ++
          [Event.transmit RFD77402_ADDR (RFD77402_CONFIGURE_A :: wordBytes w)] ∧
      (∀ i, i < 8 → w.testBit i = pre.testBit i) ∧
      (thresholdValue < 16 → ∀ i, 12 ≤ i → i < 16 → w.testBit i = pre.testBit i) := by
  refine ⟨((pre &&& 0xF0FF) ||| (thresholdValue <<< 8)) % 65536, Nat.mod_lt _ (by norm_num),
    ?_, ?_, ?_⟩
  · simp only [setThreshold, hpre]
    rw [writeRegister16_trace]
    rfl
  · intro i hi
    rw [field8_bits, if_pos hi]
  · intro hv i h12 h16
    rw [field8_bits, if_neg (by omega), if_neg (by omega), if_pos h16]
    rw [testBit_of_lt_16 thresholdValue (i - 8) hv (by omega), Bool.or_false]

theorem setThreshold_word_witness :
    ∃ w, w < 65536 ∧
      (setThreshold registerFile (attach ⟨0, fun _ => 0xABCD⟩) 0x07)._i2cPort.trace =
        (readRegister16 registerFile (attach ⟨0, fun _ => 0xABCD⟩)
          RFD77402_CONFIGURE_A).2._i2cPort.trace ++
          [Event.transmit RFD77402_ADDR (RFD77402_CONFIGURE_A :: wordBytes w)] ∧
      (∀ i, i < 8 → w.testBit i = (0xABCD : Nat).testBit i) ∧
      (∀ i, 12 ≤ i → i < 16 → w.testBit i = (0xABCD : Nat).testBit i) := by
  obtain ⟨w, h1, h2, h3, h4⟩ := setThreshold_word registerFile
    (attach ⟨0, fun _ => 0xABCD⟩)
    (readRegister16 registerFile (attach ⟨0, fun _ => 0xABCD⟩) RFD77402_CONFIGURE_A).2
    0xABCD 0x07 rfl
  exact ⟨w, h1, h2, h3, h4 (by decide)⟩

/-- C6. When the target register reads `pre`, the word `w` that `setPeak`
writes to config register A, and the word that `setFrequency` writes to
hardware config word 1, is a 16-bit word that has bits 0-11 of `pre` and the
low four bits of the argument in bits 12-15. -/
theorem setPeak_setFrequency_word (P : Peer δ) (self : RFD77402 δ) (pre value : Nat) :
    (∀ s1, readRegister16 P self RFD77402_CONFIGURE_A = (pre, s1) →
      ∃ w, w < 65536 ∧
        (setPeak P self value)._i2cPort.trace =
          s1._i2cPort.trace ++
            [Event.transmit RFD77402_ADDR (RFD77402_CONFIGURE_A :: wordBytes w)] ∧
        (∀ i, i < 12 → w.testBit i = pre.testBit i) ∧
        (∀ i, 12 ≤ i → i < 16 → w.testBit i = value.testBit (i - 12))) ∧
    (∀ s1, readRegister16 P self RFD77402_CONFIGURE_HW_1 = (pre, s1) →
      ∃ w, w < 65536 ∧
        (setFrequency P self value)._i2cPort.trace =
          s1._i2cPort.trace ++
            [Event.transmit RFD77402_ADDR (RFD77402_CONFIGURE_HW_1 :: wordBytes w)] ∧
        (∀ i, i < 12 → w.testBit i = pre.testBit i) ∧
        (∀ i, 12 ≤ i → i < 16 → w.testBit i = value.testBit (i - 12))) := by
  constructor
  · intro s1 hpre
    refine ⟨((pre &&& 0x0FFF) ||| (value <<< 12)) % 65536, Nat.mod_lt _ (by norm_num),
      ?_, ?_, ?_⟩
    · simp only [setPeak, hpre]
      rw [writeRegister16_trace]
      rfl
    · intro i hi
      rw [field12_bits, if_pos hi]
    · intro i h12 h16
      rw [field12_bits, if_neg (by omega), if_pos h16]
  · intro s1 hpre
    refine ⟨((pre &&& 0x0FFF) ||| (value <<< 12)) % 65536, Nat.mod_lt _ (by norm_num),
      ?_, ?_, ?_⟩
    · simp only [setFrequency, hpre]
      rw [writeRegister16_trace]
      rfl
    · intro i hi
      rw [field12_bits, if_pos hi]
    · intro i h12 h16
      rw [field12_bits, if_neg (by omega), if_pos h16]

theorem setPeak_setFrequency_word_witness :
    (∃ w, w < 65536 ∧
      (setPeak registerFile (attach ⟨0, fun _ => 0xABCD⟩) 0x37)._i2cPort.trace =
        (readRegister16 registerFile (attach ⟨0, fun _ => 0xABCD⟩)
          RFD77402_CONFIGURE_A).2._i2cPort.trace ++
          [Event.transmit RFD77402_ADDR (RFD77402_CONFIGURE_A :: wordBytes w)] ∧
      (∀ i, i < 12 → w.testBit i = (0xABCD : Nat).testBit i) ∧
      (∀ i, 12 ≤ i → i < 16 → w.testBit i = (0x37 : Nat).testBit (i - 12))) ∧
    (∃ w, w < 65536 ∧
      (setFrequency registerFile (attach ⟨0, fun _ => 0xABCD⟩) 0x37)._i2cPort.trace =
        (readRegister16 registerFile (attach ⟨0, fun _ => 0xABCD⟩)
          RFD77402_CONFIGURE_HW_1).2._i2cPort.trace ++
          [Event.transmit RFD77402_ADDR (RFD77402_CONFIGURE_HW_1 :: wordBytes w)] ∧
      (∀ i, i < 12 → w.testBit i = (0xABCD : Nat).testBit i) ∧
      (∀ i, 12 ≤ i → i < 16 → w.testBit i = (0x37 : Nat).testBit (i - 12))) :=
  ⟨(setPeak_setFrequency_word registerFile (attach ⟨0, fun _ => 0xABCD⟩) 0xABCD 0x37).1 _ rfl,
   (setPeak_setFrequency_word registerFile (attach ⟨0, fun _ => 0xABCD⟩) 0xABCD 0x37).2 _ rfl⟩

/-! ## The configuration accessors over a register file -/

theorem nibble_testBit (x k i : Nat) :
    (((x >>> k) &&& 0x0F) % 256).testBit i = (decide (i < 4) && x.testBit (k + i)) := by
  rw [and_0F_mod, Nat.testBit_and, Nat.testBit_shiftRight]
  have h : (0x0F : Nat).testBit i = decide (i < 4) := Nat.testBit_two_pow_sub_one 4 i
  rw [h, Bool.and_comm]

theorem registerFile_read (self : RFD77402 RegisterFile) (addr : Nat) :
    (readRegister16 registerFile self addr).1 = self._i2cPort.peer.word (addr % 256) % 65536 ∧
      (readRegister16 registerFile self addr).2._i2cPort.peer.word =
        self._i2cPort.peer.word := by
  constructor
  · rw [readRegister16_of_two registerFile self addr
      (self._i2cPort.peer.word (addr % 256) % 256)
      (self._i2cPort.peer.word (addr % 256) / 256 % 256) (by
        simp [registerFile, wordBytes])]
    omega
  · simp only [readRegister16]
    split
    · simp [TwoWire.requestFrom, TwoWire.endTransmission, TwoWire.write,
        TwoWire.beginTransmission, registerFile]
    · simp [TwoWire.read, TwoWire.requestFrom, TwoWire.endTransmission, TwoWire.write,
        TwoWire.beginTransmission, registerFile, wordBytes]

theorem registerFile_write (self : RFD77402 RegisterFile) (addr val : Nat) :
    (writeRegister16 registerFile self addr val)._i2cPort.peer.word =
      Function.update self._i2cPort.peer.word (addr % 256) (val % 65536) := by
  have h1 : val &&& 0xFF = val % 256 := Nat.and_pow_two_sub_one_eq_mod val 8
  have h2 : val % 256 + 256 * (val / 256 % 256) = val % 65536 := by omega
  simp [writeRegister16, TwoWire.endTransmission, TwoWire.write, TwoWire.beginTransmission,
    registerFile, h1, Nat.shiftRight_eq_div_pow, h2]

theorem registerFile_setPeak (self : RFD77402 RegisterFile) (v : Nat) :
    (setPeak registerFile self v)._i2cPort.peer.word =
      Function.update self._i2cPort.peer.word RFD77402_CONFIGURE_A
        ((((self._i2cPort.peer.word RFD77402_CONFIGURE_A % 65536) &&& 0x0FFF) |||
          (v <<< 12)) % 65536) := by
  simp only [setPeak]
  rw [registerFile_write, (registerFile_read self _).1, (registerFile_read self _).2,
    Nat.mod_mod]
  rfl

theorem registerFile_setThreshold (self : RFD77402 RegisterFile) (v : Nat) :
    (setThreshold registerFile self v)._i2cPort.peer.word =
      Function.update self._i2cPort.peer.word RFD77402_CONFIGURE_A
        ((((self._i2cPort.peer.word RFD77402_CONFIGURE_A % 65536) &&& 0xF0FF) |||
          (v <<< 8)) % 65536) := by
  simp only [setThreshold]
  rw [registerFile_write, (registerFile_read self _).1, (registerFile_read self _).2,
    Nat.mod_mod]
  rfl

theorem registerFile_setFrequency (self : RFD77402 RegisterFile) (v : Nat) :
    (setFrequency registerFile self v)._i2cPort.peer.word =
      Function.update self._i2cPort.peer.word RFD77402_CONFIGURE_HW_1
        ((((self._i2cPort.peer.word RFD77402_CONFIGURE_HW_1 % 65536) &&& 0x0FFF) |||
          (v <<< 12)) % 65536) := by
  simp only [setFrequency]
  rw [registerFile_write, (registerFile_read self _).1, (registerFile_read self _).2,
    Nat.mod_mod]
  rfl

theorem registerFile_getPeak (self : RFD77402 RegisterFile) :
    (getPeak registerFile self).1 =
      (((self._i2cPort.peer.word RFD77402_CONFIGURE_A % 65536) >>> 12) &&& 0x0F) % 256 := by
  simp only [getPeak]
  rw [(registerFile_read self _).1]
  rfl

theorem registerFile_getThreshold (self : RFD77402 RegisterFile) :
    (getThreshold registerFile self).1 =
      (((self._i2cPort.peer.word RFD77402_CONFIGURE_A % 65536) >>> 8) &&& 0x0F) % 256 := by
  simp only [getThreshold]
  rw [(registerFile_read self _).1]
  rfl

theorem registerFile_getFrequency (self : RFD77402 RegisterFile) :
    (getFrequency registerFile self).1 =
      (((self._i2cPort.peer.word RFD77402_CONFIGURE_HW_1 % 65536) >>> 12) &&& 0x0F) % 256 := by
  simp only [getFrequency]
  rw [(registerFile_read self _).1]
  rfl

theorem get12_set12 (pre v : Nat) (hv : v < 16) :
    ((((((pre &&& 0x0FFF) ||| (v <<< 12)) % 65536) % 65536) >>> 12) &&& 0x0F) % 256 = v := by
  apply Nat.eq_of_testBit_eq
  intro i
  rw [nibble_testBit, Nat.mod_mod, field12_bits]
  by_cases hi : i < 4
  · have h1 : ¬ 12 + i < 12 := by omega
    have h2 : 12 + i < 16 := by omega
    simp [hi, h1, h2]
  · simp [hi, testBit_of_lt_16 v i hv hi]

theorem get8_set8 (pre v : Nat) (hv : v < 16) :
    ((((((pre &&& 0xF0FF) ||| (v <<< 8)) % 65536) % 65536) >>> 8) &&& 0x0F) % 256 = v := by
  apply Nat.eq_of_testBit_eq
  intro i
  rw [nibble_testBit, Nat.mod_mod, field8_bits]
  by_cases hi : i < 4
  · have h1 : ¬ 8 + i < 8 := by omega
    have h2 : 8 + i < 12 := by omega
    simp [hi, h1, h2]
  · simp [hi, testBit_of_lt_16 v i hv hi]

theorem get8_set12 (pre v : Nat) :
    ((((((pre % 65536 &&& 0x0FFF) ||| (v <<< 12)) % 65536) % 65536) >>> 8) &&& 0x0F) % 256 =
      (((pre % 65536) >>> 8) &&& 0x0F) % 256 := by
  apply Nat.eq_of_testBit_eq
  intro i
  rw [nibble_testBit, nibble_testBit, Nat.mod_mod, field12_bits]
  by_cases hi : i < 4
  · have h1 : 8 + i < 12 := by omega
    simp [hi, h1]
  · simp [hi]

theorem get12_set8 (pre v : Nat) (hv : v < 16) :
    ((((((pre % 65536 &&& 0xF0FF) ||| (v <<< 8)) % 65536) % 65536) >>> 12) &&& 0x0F) % 256 =
      (((pre % 65536) >>> 12) &&& 0x0F) % 256 := by
  apply Nat.eq_of_testBit_eq
  intro i
  rw [nibble_testBit, nibble_testBit, Nat.mod_mod, field8_bits]
  by_cases hi : i < 4
  · have h1 : ¬ 12 + i < 8 := by omega
    have h2 : ¬ 12 + i < 12 := by omega
    have h3 : 12 + i < 16 := by omega
    have h4 : ¬ 12 + i - 8 < 4 := by omega
    simp [hi, h1, h2, h3, testBit_of_lt_16 v (12 + i - 8) hv h4]
  · simp [hi]

/-- C7. Over a register file in which a word read returns the last word
written to that address, for every initial content and every 4-bit value
`v`: `getPeak` after `setPeak(v)`, `getThreshold` after `setThreshold(v)` and
`getFrequency` after `setFrequency(v)` return `v`, `setPeak(v)` does not
change what `getThreshold` returns and `setThreshold(v)` does not change what
`getPeak` returns. -/
theorem config_field_roundtrip (self : RFD77402 RegisterFile) (v : Nat) (hv : v < 16) :
    (getPeak registerFile (setPeak registerFile self v)).1 = v ∧
      (getThreshold registerFile (setThreshold registerFile self v)).1 = v ∧
      (getFrequency registerFile (setFrequency registerFile self v)).1 = v ∧
      (getThreshold registerFile (setPeak registerFile self v)).1 =
        (getThreshold registerFile self).1 ∧
      (getPeak registerFile (setThreshold registerFile self v)).1 =
        (getPeak registerFile self).1 := by
  refine ⟨?_, ?_, ?_, ?_, ?_⟩
  · rw [registerFile_getPeak, registerFile_setPeak, Function.update_same]
    exact get12_set12 _ v hv
  · rw [registerFile_getThreshold, registerFile_setThreshold, Function.update_same]
    exact get8_set8 _ v hv
  · rw [registerFile_getFrequency, registerFile_setFrequency, Function.update_same]
    exact get12_set12 _ v hv
  · rw [registerFile_getThreshold, registerFile_getThreshold, registerFile_setPeak,
      Function.update_same]
    exact get8_set12 _ v
  · rw [registerFile_getPeak, registerFile_getPeak, registerFile_setThreshold,
      Function.update_same]
    exact get12_set8 _ v hv

theorem config_field_roundtrip_witness :
    (getPeak registerFile (setPeak registerFile (attach ⟨0, fun _ => 0xE100⟩) 0x0A)).1 = 0x0A ∧
      (getThreshold registerFile
        (setThreshold registerFile (attach ⟨0, fun _ => 0xE100⟩) 0x0A)).1 = 0x0A ∧
      (getFrequency registerFile
        (setFrequency registerFile (attach ⟨0, fun _ => 0xE100⟩) 0x0A)).1 = 0x0A ∧
      (getThreshold registerFile (setPeak registerFile (attach ⟨0, fun _ => 0xE100⟩) 0x0A)).1 =
        (getThreshold registerFile (attach ⟨0, fun _ => 0xE100⟩)).1 ∧
      (getPeak registerFile (setThreshold registerFile (attach ⟨0, fun _ => 0xE100⟩) 0x0A)).1 =
        (getPeak registerFile (attach ⟨0, fun _ => 0xE100⟩)).1 :=
  config_field_roundtrip (attach ⟨0, fun _ => 0xE100⟩) 0x0A (by decide)

/-! ## Poll loops against a scripted device -/

theorem PollOutcome.zero (hit : Nat → Prop) : PollOutcome hit 0 false 0 := by
  refine ⟨⟨fun h => absurd h (by decide), fun ⟨k, hk, _⟩ => absurd hk (by omega)⟩, ?_, ?_⟩
  · intro k hk
    omega
  · intro _
    rfl

theorem PollOutcome.first (hit : Nat → Prop) (n : Nat) (h0 : hit 0) :
    PollOutcome hit (n + 1) true 1 := by
  refine ⟨⟨fun _ => ⟨0, by omega, h0⟩, fun _ => rfl⟩, ?_, ?_⟩
  · intro k _ _ hfirst
    by_cases hk : k = 0
    · omega
    · exact absurd h0 (hfirst 0 (by omega))
  · intro h
    exact absurd h (by decide)

theorem PollOutcome.next (hit : Nat → Prop) (n : Nat) (result : Bool) (polls : Nat)
    (h0 : ¬ hit 0) (h : PollOutcome (fun k => hit (k + 1)) n result polls) :
    PollOutcome hit (n + 1) result (polls + 1) := by
  obtain ⟨h1, h2, h3⟩ := h
  refine ⟨?_, ?_, ?_⟩
  · rw [h1]
    constructor
    · rintro ⟨k, hk, hh⟩
      exact ⟨k + 1, by omega, hh⟩
    · rintro ⟨k, hk, hh⟩
      cases k with
      | zero => exact absurd hh h0
      | succ k => exact ⟨k, by omega, hh⟩
  · intro k hk hh hfirst
    cases k with
    | zero => exact absurd hh h0
    | succ k =>
      have := h2 k (by omega) hh (fun j hj => hfirst (j + 1) (by omega))
      omega
  · intro hr
    have := h3 hr
    omega

theorem readRegister16_eq_wordRead (P : Peer δ) (self : RFD77402 δ) (addr : Nat) :
    (readRegister16 P self addr).1 =
      wordRead (P.respond (P.receive self._i2cPort.peer RFD77402_ADDR [addr % 256])
        RFD77402_ADDR 2).1 := by
  generalize hb : (P.respond (P.receive self._i2cPort.peer RFD77402_ADDR [addr % 256])
    RFD77402_ADDR 2).1 = answer
  match answer, hb with
  | [], hb => exact readRegister16_of_short P self addr (by rw [hb]; decide)
  | [_], hb => exact readRegister16_of_short P self addr (by rw [hb]; simp)
  | lo :: hi :: rest, hb =>
    simp [readRegister16, TwoWire.requestFrom, TwoWire.endTransmission, TwoWire.write,
      TwoWire.beginTransmission, TwoWire.available, TwoWire.read, hb, toUint8_natCast,
      toUint8_natCast_mod, wordRead]
    exact word_of_bytes _ _ (Nat.mod_lt _ (by norm_num)) (Nat.mod_lt _ (by norm_num))

theorem readRegister_eq_byteRead (P : Peer δ) (self : RFD77402 δ) (addr : Nat) :
    (readRegister P self addr).1 =
      byteRead (P.respond (P.receive self._i2cPort.peer RFD77402_ADDR [addr % 256])
        RFD77402_ADDR 1).1 := by
  generalize hb : (P.respond (P.receive self._i2cPort.peer RFD77402_ADDR [addr % 256])
    RFD77402_ADDR 1).1 = answer
  match answer, hb with
  | [], hb =>
    simp [readRegister, TwoWire.requestFrom, TwoWire.endTransmission, TwoWire.write,
      TwoWire.beginTransmission, TwoWire.available, hb, byteRead]
  | b :: rest, hb =>
    simp [readRegister, TwoWire.requestFrom, TwoWire.endTransmission, TwoWire.write,
      TwoWire.beginTransmission, TwoWire.available, TwoWire.read, hb, toUint8_natCast,
      toUint8_natCast_mod, byteRead]

theorem wordRead_wordBytes (w : Nat) : wordRead (wordBytes w) = w % 65536 := by
  simp only [wordRead, wordBytes, List.take]
  omega

theorem read_peer (w : TwoWire δ) : w.read.2.peer = w.peer := by
  unfold TwoWire.read
  split <;> rfl

theorem scripted_readRegister16 (self : RFD77402 (Nat → List Nat)) (addr : Nat) :
    (readRegister16 scripted self addr).1 = wordRead (self._i2cPort.peer 0) ∧
      (readRegister16 scripted self addr).2._i2cPort.peer =
        (fun k => self._i2cPort.peer (k + 1)) := by
  refine ⟨readRegister16_eq_wordRead scripted self addr, ?_⟩
  simp only [readRegister16]
  split
  · simp [TwoWire.requestFrom, TwoWire.endTransmission, TwoWire.write,
      TwoWire.beginTransmission, scripted]
  · simp [read_peer, TwoWire.requestFrom, TwoWire.endTransmission, TwoWire.write,
      TwoWire.beginTransmission, scripted]

theorem scripted_readRegister (self : RFD77402 (Nat → List Nat)) (addr : Nat) :
    (readRegister scripted self addr).1 = byteRead (self._i2cPort.peer 0) ∧
      (readRegister scripted self addr).2._i2cPort.peer =
        (fun k => self._i2cPort.peer (k + 1)) := by
  refine ⟨readRegister_eq_byteRead scripted self addr, ?_⟩
  simp only [readRegister]
  split
  · simp [read_peer, TwoWire.requestFrom, TwoWire.endTransmission, TwoWire.write,
      TwoWire.beginTransmission, scripted]
  · simp [TwoWire.requestFrom, TwoWire.endTransmission, TwoWire.write,
      TwoWire.beginTransmission, scripted]

theorem scripted_writeRegister (self : RFD77402 (Nat → List Nat)) (addr val : Nat) :
    (writeRegister scripted self addr val)._i2cPort.peer = self._i2cPort.peer := by
  simp [writeRegister, TwoWire.endTransmission, TwoWire.write, TwoWire.beginTransmission,
    scripted]

/-- The status poll loop against a scripted device. -/
theorem scripted_pollDeviceStatus (target n : Nat) (self : RFD77402 (Nat → List Nat)) :
    ∃ t, (pollDeviceStatus scripted target n self).2._i2cPort.trace =
        self._i2cPort.trace ++ t ∧
      (∀ r, t.countP (Event.isWriteTo r) = 0) ∧
      (∀ r, r ≠ RFD77402_DEVICE_STATUS → t.countP (Event.isReadOf r) = 0) ∧
      t.countP Event.isRequest = t.countP (Event.isReadOf RFD77402_DEVICE_STATUS) ∧
      PollOutcome (fun k => wordRead (self._i2cPort.peer k) &&& 0x001F = target) n
        (pollDeviceStatus scripted target n self).1
        (t.countP (Event.isReadOf RFD77402_DEVICE_STATUS)) ∧
      ((pollDeviceStatus scripted target n self).1 = true →
        t.countP Event.isDelay + 1 = t.countP (Event.isReadOf RFD77402_DEVICE_STATUS)) ∧
      ((pollDeviceStatus scripted target n self).1 = false →
        t.countP Event.isDelay = t.countP (Event.isReadOf RFD77402_DEVICE_STATUS)) := by
  induction n generalizing self with
  | zero =>
    refine ⟨[], by simp [pollDeviceStatus], fun _ => rfl, fun _ _ => rfl, rfl,
      PollOutcome.zero _, ?_, ?_⟩
    · intro h
      exact absurd h (by simp [pollDeviceStatus])
    · intro _
      rfl
  | succ n ih =>
    obtain ⟨bs, hbs⟩ := readRegister16_trace scripted self RFD77402_DEVICE_STATUS
    obtain ⟨hval, hpeer⟩ := scripted_readRegister16 self RFD77402_DEVICE_STATUS
    by_cases hit : wordRead (self._i2cPort.peer 0) &&& 0x001F = target
    · have hres : pollDeviceStatus scripted target (n + 1) self =
          (true, (readRegister16 scripted self RFD77402_DEVICE_STATUS).2) := by
        simp only [pollDeviceStatus, hval, hit, if_true]
      rw [hres]
      refine ⟨_, hbs, fun _ => rfl, ?_, rfl, PollOutcome.first _ n hit, fun _ => rfl, ?_⟩
      · intro r hr
        have hr' : ¬ (6 = r) := fun h => hr (by rw [← h]; rfl)
        simp [Event.isReadOf, RFD77402_DEVICE_STATUS, hr']
      · intro h
        exact absurd h (by simp)
    · have hres : pollDeviceStatus scripted target (n + 1) self =
          pollDeviceStatus scripted target n
            ((readRegister16 scripted self RFD77402_DEVICE_STATUS).2.delay 10) := by
        simp only [pollDeviceStatus, hval, hit, if_false]
      obtain ⟨t, ht, hw, ho, hr, hout, hd1, hd2⟩ :=
        ih ((readRegister16 scripted self RFD77402_DEVICE_STATUS).2.delay 10)
      have hpeer' : ((readRegister16 scripted self RFD77402_DEVICE_STATUS).2.delay
          10)._i2cPort.peer = (fun k => self._i2cPort.peer (k + 1)) := hpeer
      rw [hpeer'] at hout
      rw [hres]
      refine ⟨Event.transmit RFD77402_ADDR [RFD77402_DEVICE_STATUS % 256] ::
        Event.request RFD77402_ADDR 2 bs :: Event.delay 10 :: t, ?_, ?_, ?_, ?_, ?_, ?_, ?_⟩
      · rw [ht]
        simp only [delay, hbs, List.append_assoc, List.cons_append, List.nil_append]
      · intro r
        simpa [Event.isWriteTo] using hw r
      · intro r hr
        have hr' : ¬ (6 = r) := fun h => hr (by rw [← h]; rfl)
        simpa [Event.isReadOf, RFD77402_DEVICE_STATUS, hr'] using ho r hr
      · simpa [Event.isRequest, Event.isReadOf, RFD77402_DEVICE_STATUS] using hr
      · have := PollOutcome.next
          (fun k => wordRead (self._i2cPort.peer k) &&& 0x001F = target) n _ _ hit hout
        simpa [Event.isReadOf, RFD77402_DEVICE_STATUS] using this
      · intro h
        have := hd1 h
        simp [Event.isReadOf, Event.isDelay, RFD77402_DEVICE_STATUS] at this ⊢
        omega
      · intro h
        have := hd2 h
        simp [Event.isReadOf, Event.isDelay, RFD77402_DEVICE_STATUS] at this ⊢
        omega

theorem and_16_ne_zero (x : Nat) : x &&& (1 <<< 4) ≠ 0 ↔ x.testBit 4 = true := by
  have h : x &&& (1 <<< 4) = (x.testBit 4).toNat * 2 ^ 4 := Nat.and_two_pow x 4
  rw [h]
  cases x.testBit 4 <;> simp

/-- The data-ready poll loop against a scripted device. -/
theorem scripted_pollDataReady (n : Nat) (self : RFD77402 (Nat → List Nat)) :
    ∃ t, (pollDataReady scripted n self).2._i2cPort.trace = self._i2cPort.trace ++ t ∧
      (∀ r, t.countP (Event.isWriteTo r) = 0) ∧
      (∀ r, r ≠ RFD77402_ICSR → t.countP (Event.isReadOf r) = 0) ∧
      t.countP Event.isRequest = t.countP (Event.isReadOf RFD77402_ICSR) ∧
      PollOutcome (fun k => (byteRead (self._i2cPort.peer k)).testBit 4 = true) n
        (pollDataReady scripted n self).1 (t.countP (Event.isReadOf RFD77402_ICSR)) ∧
      ((pollDataReady scripted n self).1 = true →
        t.countP Event.isDelay + 1 = t.countP (Event.isReadOf RFD77402_ICSR)) ∧
      ((pollDataReady scripted n self).1 = false →
        t.countP Event.isDelay = t.countP (Event.isReadOf RFD77402_ICSR)) := by
  induction n generalizing self with
  | zero =>
    refine ⟨[], by simp [pollDataReady], fun _ => rfl, fun _ _ => rfl, rfl,
      PollOutcome.zero _, ?_, ?_⟩
    · intro h
      exact absurd h (by simp [pollDataReady])
    · intro _
      rfl
  | succ n ih =>
    obtain ⟨bs, hbs⟩ := readRegister_trace scripted self RFD77402_ICSR
    obtain ⟨hval, hpeer⟩ := scripted_readRegister self RFD77402_ICSR
    by_cases hit : (byteRead (self._i2cPort.peer 0)).testBit 4 = true
    · have hit' := (and_16_ne_zero _).mpr hit
      have hres : pollDataReady scripted (n + 1) self =
          (true, (readRegister scripted self RFD77402_ICSR).2) := by
        simp only [pollDataReady, hval]
        rw [if_pos hit']
      rw [hres]
      refine ⟨_, hbs, fun _ => rfl, ?_, rfl, PollOutcome.first _ n hit, fun _ => rfl, ?_⟩
      · intro r hr
        have hr' : ¬ (0 = r) := fun h => hr (by rw [← h]; rfl)
        simp [Event.isReadOf, RFD77402_ICSR, hr']
      · intro h
        exact absurd h (by simp)
    · have hit' : ¬ (byteRead (self._i2cPort.peer 0) &&& (1 <<< 4) ≠ 0) :=
        fun h => hit ((and_16_ne_zero _).mp h)
      have hres : pollDataReady scripted (n + 1) self =
          pollDataReady scripted n ((readRegister scripted self RFD77402_ICSR).2.delay 10) := by
        simp only [pollDataReady, hval]
        rw [if_neg hit']
      obtain ⟨t, ht, hw, ho, hr, hout, hd1, hd2⟩ :=
        ih ((readRegister scripted self RFD77402_ICSR).2.delay 10)
      have hpeer' : ((readRegister scripted self RFD77402_ICSR).2.delay 10)._i2cPort.peer =
          (fun k => self._i2cPort.peer (k + 1)) := hpeer
      rw [hpeer'] at hout
      rw [hres]
      refine ⟨Event.transmit RFD77402_ADDR [RFD77402_ICSR % 256] ::
        Event.request RFD77402_ADDR 1 bs :: Event.delay 10 :: t, ?_, ?_, ?_, ?_, ?_, ?_, ?_⟩
      · rw [ht]
        simp only [delay, hbs, List.append_assoc, List.cons_append, List.nil_append]
      · intro r
        simpa [Event.isWriteTo] using hw r
      · intro r hr
        have hr' : ¬ (0 = r) := fun h => hr (by rw [← h]; rfl)
        simpa [Event.isReadOf, RFD77402_ICSR, hr'] using ho r hr
      · simpa [Event.isRequest, Event.isReadOf, RFD77402_ICSR] using hr
      · have := PollOutcome.next
          (fun k => (byteRead (self._i2cPort.peer k)).testBit 4 = true) n _ _ hit hout
        simpa [Event.isReadOf, RFD77402_ICSR] using this
      · intro h
        have := hd1 h
        simp [Event.isReadOf, Event.isDelay, RFD77402_ICSR] at this ⊢
        omega
      · intro h
        have := hd2 h
        simp [Event.isReadOf, Event.isDelay, RFD77402_ICSR] at this ⊢
        omega

theorem and_1F_of_mod (x : Nat) : (x % 65536) &&& 0x001F = x &&& 0x001F := by
  have h1 : ∀ y : Nat, y &&& 0x001F = y % 32 := fun y => Nat.and_pow_two_sub_one_eq_mod y 5
  rw [h1, h1]
  omega

/-- A mode transition that polls the device status register, against a
scripted device. -/
theorem scripted_statusTransition (opcode target : Nat) (hop : opcode < 256)
    (self : RFD77402 (Nat → List Nat)) :
    TransitionSpec opcode RFD77402_DEVICE_STATUS
      (fun k => wordRead (self._i2cPort.peer k) &&& 0x001F = target) self._i2cPort.trace
      (pollDeviceStatus scripted target 10 (writeRegister scripted self RFD77402_COMMAND opcode)).1
      (pollDeviceStatus scripted target 10
        (writeRegister scripted self RFD77402_COMMAND opcode)).2._i2cPort.trace := by
  obtain ⟨t, ht, hw, ho, hr, hout, _, _⟩ :=
    scripted_pollDeviceStatus target 10 (writeRegister scripted self RFD77402_COMMAND opcode)
  rw [scripted_writeRegister] at hout
  refine ⟨t, ?_, hw, ho, hr, hout⟩
  rw [ht, writeRegister_trace, Nat.mod_eq_of_lt hop]
  simp only [List.append_assoc, List.cons_append, List.nil_append]
  rfl

/-- C8. Let `s 0, s 1, ...` be the words returned by successive reads of the
device status register. Each of `goToStandbyMode`, `goToOffMode` and
`goToOnMode`, with (opcode, target) = (0x90, 0x00), (0x91, 0x10),
(0x92, 0x18), first writes its opcode to the command register, then only
reads the device status register; it returns true iff one of the first ten
words has its low five bits equal to the target, performs `k + 1` reads when
`s k` is the first such word, and ten reads when it returns false. -/
theorem mode_transition_polls (self : RFD77402 (Nat → List Nat)) (s : Nat → Nat)
    (hs : ∀ k, wordRead (self._i2cPort.peer k) = s k) :
    TransitionSpec 0x90 RFD77402_DEVICE_STATUS (fun k => s k &&& 0x001F = 0x0000)
        self._i2cPort.trace (goToStandbyMode scripted self).1
        (goToStandbyMode scripted self).2._i2cPort.trace ∧
      TransitionSpec 0x91 RFD77402_DEVICE_STATUS (fun k => s k &&& 0x001F = 0x0010)
        self._i2cPort.trace (goToOffMode scripted self).1
        (goToOffMode scripted self).2._i2cPort.trace ∧
      TransitionSpec 0x92 RFD77402_DEVICE_STATUS (fun k => s k &&& 0x001F = 0x0018)
        self._i2cPort.trace (goToOnMode scripted self).1
        (goToOnMode scripted self).2._i2cPort.trace ∧
      RFD77402_COMMAND = 0x04 ∧ RFD77402_DEVICE_STATUS = 0x06 := by
  have h := fun op tg hop => scripted_statusTransition op tg hop self
  simp only [hs] at h
  exact ⟨h 0x90 0x0000 (by norm_num), h 0x91 0x0010 (by norm_num),
    h 0x92 0x0018 (by norm_num), rfl, rfl⟩

theorem mode_transition_polls_witness :
    (TransitionSpec 0x90 RFD77402_DEVICE_STATUS
        (fun k => wordRead (statusScript k) &&& 0x001F = 0x0000)
        [] (goToStandbyMode scripted (attach statusScript)).1
        (goToStandbyMode scripted (attach statusScript)).2._i2cPort.trace ∧
      TransitionSpec 0x91 RFD77402_DEVICE_STATUS
        (fun k => wordRead (statusScript k) &&& 0x001F = 0x0010)
        [] (goToOffMode scripted (attach statusScript)).1
        (goToOffMode scripted (attach statusScript)).2._i2cPort.trace ∧
      TransitionSpec 0x92 RFD77402_DEVICE_STATUS
        (fun k => wordRead (statusScript k) &&& 0x001F = 0x0018)
        [] (goToOnMode scripted (attach statusScript)).1
        (goToOnMode scripted (attach statusScript)).2._i2cPort.trace ∧
      RFD77402_COMMAND = 0x04 ∧ RFD77402_DEVICE_STATUS = 0x06) ∧
      (goToStandbyMode scripted (attach statusScript)).1 = true ∧
      (goToStandbyMode scripted (attach statusScript)).2._i2cPort.trace.countP
        (Event.isReadOf RFD77402_DEVICE_STATUS) = 3 ∧
      (goToOffMode scripted (attach statusScript)).2._i2cPort.trace =
        [Event.transmit RFD77402_ADDR [RFD77402_COMMAND, 0x91],
         Event.transmit RFD77402_ADDR [RFD77402_DEVICE_STATUS],
         Event.request RFD77402_ADDR 2 [0x10, 0x00]] ∧
      (goToOnMode scripted (attach deadScript)).1 = false :=
  ⟨mode_transition_polls (attach statusScript) (fun k => wordRead (statusScript k))
    (fun _ => rfl), by decide⟩

/-- C9. Let `b 0, b 1, ...` be the bytes returned by successive reads of the
interrupt/status register (0x00). `goToMeasurementMode` first writes opcode
`0x81` to the command register, then only reads register 0x00 (never the
device status register); it returns true iff one of the first ten bytes has
bit 4 set, and performs `k + 1` reads when `b k` is the first such byte. -/
theorem measurement_transition_polls (self : RFD77402 (Nat → List Nat)) (b : Nat → Nat)
    (hb : ∀ k, byteRead (self._i2cPort.peer k) = b k) :
    TransitionSpec 0x81 RFD77402_ICSR (fun k => (b k).testBit 4 = true)
        self._i2cPort.trace (goToMeasurementMode scripted self).1
        (goToMeasurementMode scripted self).2._i2cPort.trace ∧
      RFD77402_ICSR = 0x00 ∧ RFD77402_ICSR ≠ RFD77402_DEVICE_STATUS := by
  obtain ⟨t, ht, hw, ho, hr, hout, _, _⟩ :=
    scripted_pollDataReady 10 (writeRegister scripted self RFD77402_COMMAND 0x81)
  rw [scripted_writeRegister] at hout
  simp only [hb] at hout
  refine ⟨⟨t, ?_, hw, ho, hr, hout⟩, rfl, by decide⟩
  simp only [goToMeasurementMode]
  rw [ht, writeRegister_trace]
  simp only [List.append_assoc, List.cons_append, List.nil_append]
  rfl

theorem measurement_transition_polls_witness :
    (TransitionSpec 0x81 RFD77402_ICSR
        (fun k => (byteRead (readyAtThirdScript k)).testBit 4 = true)
        [] (goToMeasurementMode scripted (attach readyAtThirdScript)).1
        (goToMeasurementMode scripted (attach readyAtThirdScript)).2._i2cPort.trace ∧
      RFD77402_ICSR = 0x00 ∧ RFD77402_ICSR ≠ RFD77402_DEVICE_STATUS) ∧
      (goToMeasurementMode scripted (attach readyAtThirdScript)).1 = true ∧
      (goToMeasurementMode scripted (attach readyAtThirdScript)).2._i2cPort.trace.countP
        (Event.isReadOf RFD77402_ICSR) = 3 ∧
      (goToMeasurementMode scripted (attach (fun _ => [0xEF]))).1 = false :=
  ⟨measurement_transition_polls (attach readyAtThirdScript)
    (fun k => byteRead (readyAtThirdScript k)) (fun _ => rfl), by decide⟩

/-- C10. Failing input: a device whose reads all fail, so that every byte
read yields `0xFF` and every word read yields `0xFFFF`. `goToStandbyMode`,
`goToOffMode` and `goToOnMode` return false after ten status reads, but
`goToMeasurementMode` returns true after a single read, because bit 4 of the
sentinel `0xFF` is set. -/
theorem transitions_on_dead_bus :
    (readRegister scripted (attach deadScript) RFD77402_ICSR).1 = 0xFF ∧
      (readRegister16 scripted (attach deadScript) RFD77402_DEVICE_STATUS).1 = 0xFFFF ∧
      (goToStandbyMode scripted (attach deadScript)).1 = false ∧
      (goToOffMode scripted (attach deadScript)).1 = false ∧
      (goToOnMode scripted (attach deadScript)).1 = false ∧
      (goToStandbyMode scripted (attach deadScript)).2._i2cPort.trace.countP
        (Event.isReadOf RFD77402_DEVICE_STATUS) = 10 ∧
      (goToOffMode scripted (attach deadScript)).2._i2cPort.trace.countP
        (Event.isReadOf RFD77402_DEVICE_STATUS) = 10 ∧
      (goToOnMode scripted (attach deadScript)).2._i2cPort.trace.countP
        (Event.isReadOf RFD77402_DEVICE_STATUS) = 10 ∧
      (goToMeasurementMode scripted (attach deadScript)).1 = true ∧
      (goToMeasurementMode scripted (attach deadScript)).2._i2cPort.trace =
        [Event.transmit RFD77402_ADDR [RFD77402_COMMAND, 0x81],
         Event.transmit RFD77402_ADDR [RFD77402_ICSR],
         Event.request RFD77402_ADDR 1 []] := by
  decide

/-! ## Register writes in a trace -/

theorem writesTo_append (reg : Nat) (a b : List Event) :
    writesTo reg (a ++ b) = writesTo reg a ++ writesTo reg b := by
  induction a with
  | nil => rfl
  | cons e a ih =>
    cases e with
    | transmit addr bytes =>
      match bytes with
      | [] => simpa [writesTo] using ih
      | [_] => simpa [writesTo] using ih
      | r :: d :: ds =>
        by_cases h : r = reg
        · simp [writesTo, h, ih]
        · simp [writesTo, h, ih]
    | request addr q bytes => simpa [writesTo] using ih
    | delay ms => simpa [writesTo] using ih

theorem writesTo_readRegister16 (P : Peer δ) (self : RFD77402 δ) (addr reg : Nat) :
    writesTo reg (readRegister16 P self addr).2._i2cPort.trace =
      writesTo reg self._i2cPort.trace := by
  obtain ⟨bs, h⟩ := readRegister16_trace P self addr
  rw [h, writesTo_append]
  simp [writesTo]

theorem writesTo_readRegister (P : Peer δ) (self : RFD77402 δ) (addr reg : Nat) :
    writesTo reg (readRegister P self addr).2._i2cPort.trace =
      writesTo reg self._i2cPort.trace := by
  obtain ⟨bs, h⟩ := readRegister_trace P self addr
  rw [h, writesTo_append]
  simp [writesTo]

theorem writesTo_writeRegister (P : Peer δ) (self : RFD77402 δ) (addr val reg : Nat) :
    writesTo reg (writeRegister P self addr val)._i2cPort.trace =
      writesTo reg self._i2cPort.trace ++ (if addr % 256 = reg then [[val % 256]] else []) := by
  rw [writeRegister_trace, writesTo_append]
  by_cases h : addr % 256 = reg <;> simp [writesTo, h]

theorem writesTo_writeRegister16 (P : Peer δ) (self : RFD77402 δ) (addr val reg : Nat) :
    writesTo reg (writeRegister16 P self addr val)._i2cPort.trace =
      writesTo reg self._i2cPort.trace ++
        (if addr % 256 = reg then [wordBytes val] else []) := by
  rw [writeRegister16_trace, writesTo_append]
  by_cases h : addr % 256 = reg <;> simp [writesTo, wordBytes, h]

theorem writesTo_delay (self : RFD77402 δ) (ms reg : Nat) :
    writesTo reg (self.delay ms)._i2cPort.trace = writesTo reg self._i2cPort.trace := by
  simp [delay, writesTo_append, writesTo]

theorem writesTo_pollDeviceStatus (P : Peer δ) (target n reg : Nat) (self : RFD77402 δ) :
    writesTo reg (pollDeviceStatus P target n self).2._i2cPort.trace =
      writesTo reg self._i2cPort.trace := by
  induction n generalizing self with
  | zero => rfl
  | succ n ih =>
    simp only [pollDeviceStatus]
    split
    · exact writesTo_readRegister16 P self _ reg
    · rw [ih, writesTo_delay, writesTo_readRegister16]

theorem writesTo_goToStandbyMode (P : Peer δ) (self : RFD77402 δ) (reg : Nat) :
    writesTo reg (goToStandbyMode P self).2._i2cPort.trace =
      writesTo reg self._i2cPort.trace ++
        (if RFD77402_COMMAND = reg then [[0x90]] else []) := by
  simp only [goToStandbyMode]
  rw [writesTo_pollDeviceStatus, writesTo_writeRegister]
  rfl

theorem writesTo_goToOffMode (P : Peer δ) (self : RFD77402 δ) (reg : Nat) :
    writesTo reg (goToOffMode P self).2._i2cPort.trace =
      writesTo reg self._i2cPort.trace ++
        (if RFD77402_COMMAND = reg then [[0x91]] else []) := by
  simp only [goToOffMode]
  rw [writesTo_pollDeviceStatus, writesTo_writeRegister]
  rfl

theorem writesTo_goToOnMode (P : Peer δ) (self : RFD77402 δ) (reg : Nat) :
    writesTo reg (goToOnMode P self).2._i2cPort.trace =
      writesTo reg self._i2cPort.trace ++
        (if RFD77402_COMMAND = reg then [[0x92]] else []) := by
  simp only [goToOnMode]
  rw [writesTo_pollDeviceStatus, writesTo_writeRegister]
  rfl

/-- The configuration block after the first Standby writes `0x01` to the
interrupt-source register, `0x65` to the I2C configuration and `0x0500` to the
power-management register; its one other write goes to ICSR. -/
theorem writesTo_beginPowerOn (P : Peer δ) (self : RFD77402 δ) (reg : Nat)
    (hreg : reg ≠ RFD77402_ICSR) :
    writesTo reg (beginPowerOn P self)._i2cPort.trace =
      writesTo reg self._i2cPort.trace ++
        (if RFD77402_INTERRUPTS = reg then [[0x01]] else []) ++
        (if RFD77402_CONFIGURE_I2C = reg then [[0x65]] else []) ++
        (if RFD77402_CONFIGURE_PMU = reg then [wordBytes 0x0500] else []) := by
  have h0 : ¬ (RFD77402_ICSR % 256 = reg) := fun h => hreg (by rw [← h]; rfl)
  simp only [beginPowerOn]
  rw [writesTo_writeRegister16, writesTo_writeRegister, writesTo_writeRegister,
    writesTo_readRegister, writesTo_writeRegister, writesTo_readRegister, if_neg h0]
  simp [INTSRC_DATA, INTSRC_M2H, INTSRC_H2M, INTSRC_RST, RFD77402_INTERRUPTS,
    RFD77402_CONFIGURE_I2C, RFD77402_CONFIGURE_PMU]

/-- The sensing-parameter block writes only to config A, config B and the
four hardware configuration words. -/
theorem writesTo_beginToF (P : Peer δ) (self : RFD77402 δ) (reg : Nat)
    (hreg : reg < 0x0C) :
    writesTo reg (beginToF P self)._i2cPort.trace = writesTo reg self._i2cPort.trace := by
  have h : ∀ a, 0x0C ≤ a → a < 256 → ¬ (a % 256 = reg) := fun a h1 h2 h3 => by
    rw [Nat.mod_eq_of_lt h2] at h3
    omega
  simp only [beginToF, setPeak, setThreshold]
  simp only [writesTo_writeRegister16, writesTo_readRegister16]
  rw [if_neg (h _ (by decide) (by decide)), if_neg (h _ (by decide) (by decide)),
    if_neg (h _ (by decide) (by decide)), if_neg (h _ (by decide) (by decide)),
    if_neg (h _ (by decide) (by decide)), if_neg (h _ (by decide) (by decide)),
    if_neg (h _ (by decide) (by decide))]
  simp

/-! ## Traces only grow -/

theorem prefix_readRegister16 (P : Peer δ) (self : RFD77402 δ) (addr : Nat) (t : List Event)
    (h : t <+: self._i2cPort.trace) : t <+: (readRegister16 P self addr).2._i2cPort.trace := by
  obtain ⟨bs, hbs⟩ := readRegister16_trace P self addr
  rw [hbs]
  exact h.trans (List.prefix_append _ _)

theorem prefix_readRegister (P : Peer δ) (self : RFD77402 δ) (addr : Nat) (t : List Event)
    (h : t <+: self._i2cPort.trace) : t <+: (readRegister P self addr).2._i2cPort.trace := by
  obtain ⟨bs, hbs⟩ := readRegister_trace P self addr
  rw [hbs]
  exact h.trans (List.prefix_append _ _)

theorem prefix_writeRegister (P : Peer δ) (self : RFD77402 δ) (addr val : Nat)
    (t : List Event) (h : t <+: self._i2cPort.trace) :
    t <+: (writeRegister P self addr val)._i2cPort.trace := by
  rw [writeRegister_trace]
  exact h.trans (List.prefix_append _ _)

theorem prefix_writeRegister16 (P : Peer δ) (self : RFD77402 δ) (addr val : Nat)
    (t : List Event) (h : t <+: self._i2cPort.trace) :
    t <+: (writeRegister16 P self addr val)._i2cPort.trace := by
  rw [writeRegister16_trace]
  exact h.trans (List.prefix_append _ _)

theorem prefix_delay (self : RFD77402 δ) (ms : Nat) (t : List Event)
    (h : t <+: self._i2cPort.trace) : t <+: (self.delay ms)._i2cPort.trace :=
  h.trans (List.prefix_append _ _)

theorem prefix_pollDeviceStatus (P : Peer δ) (target n : Nat) (self : RFD77402 δ)
    (t : List Event) (h : t <+: self._i2cPort.trace) :
    t <+: (pollDeviceStatus P target n self).2._i2cPort.trace := by
  induction n generalizing self with
  | zero => exact h
  | succ n ih =>
    simp only [pollDeviceStatus]
    split
    · exact prefix_readRegister16 P self _ t h
    · exact ih _ (prefix_delay _ _ t (prefix_readRegister16 P self _ t h))

theorem prefix_goToStandbyMode (P : Peer δ) (self : RFD77402 δ) (t : List Event)
    (h : t <+: self._i2cPort.trace) : t <+: (goToStandbyMode P self).2._i2cPort.trace :=
  prefix_pollDeviceStatus P _ _ _ t (prefix_writeRegister P self _ _ t h)

theorem prefix_goToOffMode (P : Peer δ) (self : RFD77402 δ) (t : List Event)
    (h : t <+: self._i2cPort.trace) : t <+: (goToOffMode P self).2._i2cPort.trace :=
  prefix_pollDeviceStatus P _ _ _ t (prefix_writeRegister P self _ _ t h)

theorem prefix_goToOnMode (P : Peer δ) (self : RFD77402 δ) (t : List Event)
    (h : t <+: self._i2cPort.trace) : t <+: (goToOnMode P self).2._i2cPort.trace :=
  prefix_pollDeviceStatus P _ _ _ t (prefix_writeRegister P self _ _ t h)

theorem prefix_beginPowerOn (P : Peer δ) (self : RFD77402 δ) (t : List Event)
    (h : t <+: self._i2cPort.trace) : t <+: (beginPowerOn P self)._i2cPort.trace := by
  simp only [beginPowerOn]
  exact prefix_writeRegister16 P _ _ _ t (prefix_writeRegister P _ _ _ t
    (prefix_writeRegister P _ _ _ t (prefix_readRegister P _ _ t
      (prefix_writeRegister P _ _ _ t (prefix_readRegister P _ _ t h)))))

theorem prefix_beginToF (P : Peer δ) (self : RFD77402 δ) (t : List Event)
    (h : t <+: self._i2cPort.trace) : t <+: (beginToF P self)._i2cPort.trace := by
  simp only [beginToF, setPeak, setThreshold]
  exact prefix_writeRegister16 P _ _ _ t (prefix_writeRegister16 P _ _ _ t
    (prefix_writeRegister16 P _ _ _ t (prefix_writeRegister16 P _ _ _ t
      (prefix_writeRegister16 P _ _ _ t (prefix_writeRegister16 P _ _ _ t
        (prefix_readRegister16 P _ _ t (prefix_writeRegister16 P _ _ _ t
          (prefix_readRegister16 P _ _ t h))))))))

/-- Every exit of `begin` behind the write of the first standby opcode keeps
what was on the bus up to that write. -/
theorem prefix_begin (P : Peer δ) (self : RFD77402 δ) (wirePort : TwoWire δ)
    (i2cSpeed id : Nat) (s0 : RFD77402 δ)
    (hid : getChipID P { self with _i2cPort := (wirePort.begin).setClock i2cSpeed } = (id, s0))
    (hok : ¬ id < 0xAD00) :
    (writeRegister P s0 RFD77402_COMMAND 0x90)._i2cPort.trace <+:
      (begin P self wirePort i2cSpeed).2._i2cPort.trace := by
  have h1 : (writeRegister P s0 RFD77402_COMMAND 0x90)._i2cPort.trace <+:
      (goToStandbyMode P s0).2._i2cPort.trace :=
    prefix_pollDeviceStatus P _ _ _ _ (List.prefix_refl _)
  have h2 := prefix_goToOffMode P _ _ (prefix_beginPowerOn P _ _ h1)
  have h3 := prefix_goToOnMode P _ _ (prefix_writeRegister16 P _ RFD77402_CONFIGURE_PMU 0x0600 _ h2)
  have h4 := prefix_goToStandbyMode P _ _ (prefix_beginToF P _ _ h3)
  have h5 := prefix_goToStandbyMode P _ _ h4
  have h6 := prefix_goToOffMode P _ _ (prefix_writeRegister16 P _ RFD77402_CONFIGURE_PMU 0x0500 _ h5)
  have h7 := prefix_goToOnMode P _ _ (prefix_writeRegister16 P _ RFD77402_CONFIGURE_PMU 0x0600 _ h6)
  unfold begin
  simp only [hid, hok, if_false]
  split_ifs
  · exact h1
  · exact h2
  · exact h3
  · exact h4
  · exact h5
  · exact h6
  · exact h7
  · exact h7

/-! ## Initialisation -/

theorem pollDeviceStatus_true (P : Peer δ) (target n : Nat) (self : RFD77402 δ)
    (h : (pollDeviceStatus P target n self).1 = true) :
    ∃ s, (readRegister16 P s RFD77402_DEVICE_STATUS).1 &&& 0x001F = target ∧
      (pollDeviceStatus P target n self).2 = (readRegister16 P s RFD77402_DEVICE_STATUS).2 := by
  induction n generalizing self with
  | zero => exact absurd h (by simp [pollDeviceStatus])
  | succ n ih =>
    simp only [pollDeviceStatus] at h ⊢
    split
    · next hit => exact ⟨self, hit, rfl⟩
    · next hit =>
      rw [if_neg hit] at h
      exact ih _ h

/-- C11. Let `id` be the chip-identity word read from register 0x28 at the
start of `begin`. When `id` is below `0xAD00`, `begin` returns false right
after that read, and the trace holds no write to any register that was not
there before. When `id` is at least `0xAD00`, the next thing on the bus after
the identity read is the write of the standby opcode `0x90` to the command
register. -/
theorem begin_identity_check (P : Peer δ) (self : RFD77402 δ) (wirePort : TwoWire δ)
    (i2cSpeed id : Nat) (s0 : RFD77402 δ)
    (hid : getChipID P { self with _i2cPort := (wirePort.begin).setClock i2cSpeed } = (id, s0)) :
    (∃ bs, s0._i2cPort.trace = wirePort.trace ++
        [Event.transmit RFD77402_ADDR [0x28], Event.request RFD77402_ADDR 2 bs]) ∧
      (id < 0xAD00 →
        begin P self wirePort i2cSpeed = (false, s0) ∧
        ∀ reg, writesTo reg (begin P self wirePort i2cSpeed).2._i2cPort.trace =
          writesTo reg wirePort.trace) ∧
      (0xAD00 ≤ id →
        ∃ t, (begin P self wirePort i2cSpeed).2._i2cPort.trace =
          s0._i2cPort.trace ++ Event.transmit RFD77402_ADDR [RFD77402_COMMAND, 0x90] :: t) := by
  have htr : ∃ bs, s0._i2cPort.trace = wirePort.trace ++
      [Event.transmit RFD77402_ADDR [0x28], Event.request RFD77402_ADDR 2 bs] := by
    obtain ⟨bs, hbs⟩ := readRegister16_trace P
      { self with _i2cPort := (wirePort.begin).setClock i2cSpeed } RFD77402_MOD_CHIP_ID
    have hid' : readRegister16 P { self with _i2cPort := (wirePort.begin).setClock i2cSpeed }
        RFD77402_MOD_CHIP_ID = (id, s0) := hid
    rw [hid'] at hbs
    exact ⟨bs, hbs⟩
  refine ⟨htr, ?_, ?_⟩
  · intro hlt
    have hb : begin P self wirePort i2cSpeed = (false, s0) := by
      unfold begin
      simp only [hid, hlt, if_true]
    refine ⟨hb, ?_⟩
    intro reg
    obtain ⟨bs, hbs⟩ := htr
    rw [hb]
    simp only [hbs, writesTo_append]
    simp [writesTo]
  · intro hge
    obtain ⟨t, ht⟩ := prefix_begin P self wirePort i2cSpeed id s0 hid (by omega)
    refine ⟨t, ?_⟩
    rw [← ht, writeRegister_trace]
    simp only [List.append_assoc, List.cons_append, List.nil_append]
    rfl

theorem begin_identity_check_witness :
    ((∃ bs, (getChipID scripted (attach wrongChipScript)).2._i2cPort.trace =
        [] ++ [Event.transmit RFD77402_ADDR [0x28], Event.request RFD77402_ADDR 2 bs]) ∧
      (0xACFF < 0xAD00 →
        begin scripted (attach wrongChipScript) (attach wrongChipScript)._i2cPort 100000 =
          (false, (getChipID scripted (attach wrongChipScript)).2) ∧
        ∀ reg, writesTo reg (begin scripted (attach wrongChipScript)
          (attach wrongChipScript)._i2cPort 100000).2._i2cPort.trace = writesTo reg []) ∧
      (0xAD00 ≤ 0xACFF →
        ∃ t, (begin scripted (attach wrongChipScript)
          (attach wrongChipScript)._i2cPort 100000).2._i2cPort.trace =
          (getChipID scripted (attach wrongChipScript)).2._i2cPort.trace ++
            Event.transmit RFD77402_ADDR [RFD77402_COMMAND, 0x90] :: t)) ∧
    ((∃ bs, (getChipID scripted (attach beginScript)).2._i2cPort.trace =
        [] ++ [Event.transmit RFD77402_ADDR [0x28], Event.request RFD77402_ADDR 2 bs]) ∧
      (0xAD01 < 0xAD00 →
        begin scripted (attach beginScript) (attach beginScript)._i2cPort 100000 =
          (false, (getChipID scripted (attach beginScript)).2) ∧
        ∀ reg, writesTo reg (begin scripted (attach beginScript)
          (attach beginScript)._i2cPort 100000).2._i2cPort.trace = writesTo reg []) ∧
      (0xAD00 ≤ 0xAD01 →
        ∃ t, (begin scripted (attach beginScript)
          (attach beginScript)._i2cPort 100000).2._i2cPort.trace =
          (getChipID scripted (attach beginScript)).2._i2cPort.trace ++
            Event.transmit RFD77402_ADDR [RFD77402_COMMAND, 0x90] :: t)) :=
  ⟨begin_identity_check scripted (attach wrongChipScript) (attach wrongChipScript)._i2cPort
      100000 0xACFF (getChipID scripted (attach wrongChipScript)).2 rfl,
    begin_identity_check scripted (attach beginScript) (attach beginScript)._i2cPort
      100000 0xAD01 (getChipID scripted (attach beginScript)).2 rfl⟩

/-- C12. Name the results of the identity read and of the seven mode
transitions that `begin` performs one after the other. `begin` returns true
iff the identity word is at least `0xAD00` and all seven transitions return
true. At the first transition that returns false, `begin` returns false in
the state that transition left, so nothing follows its polls on the bus. A
true result is returned in the state left by the last `goToOnMode`, which
ended with a status read whose low five bits are `0x18`. -/
theorem begin_result (P : Peer δ) (self : RFD77402 δ) (wirePort : TwoWire δ) (i2cSpeed : Nat) :
    let s0 := getChipID P { self with _i2cPort := (wirePort.begin).setClock i2cSpeed }
    let t1 := goToStandbyMode P s0.2
    let t2 := goToOffMode P (beginPowerOn P t1.2)
    let t3 := goToOnMode P (writeRegister16 P t2.2 RFD77402_CONFIGURE_PMU 0x0600)
    let t4 := goToStandbyMode P (beginToF P t3.2)
    let t5 := goToStandbyMode P t4.2
    let t6 := goToOffMode P (writeRegister16 P t5.2 RFD77402_CONFIGURE_PMU 0x0500)
    let t7 := goToOnMode P (writeRegister16 P t6.2 RFD77402_CONFIGURE_PMU 0x0600)
    let result := begin P self wirePort i2cSpeed
    (result.1 = true ↔
        0xAD00 ≤ s0.1 ∧ t1.1 = true ∧ t2.1 = true ∧ t3.1 = true ∧ t4.1 = true ∧
          t5.1 = true ∧ t6.1 = true ∧ t7.1 = true) ∧
      (s0.1 < 0xAD00 → result = (false, s0.2)) ∧
      (0xAD00 ≤ s0.1 → t1.1 = false → result = (false, t1.2)) ∧
      (0xAD00 ≤ s0.1 → t1.1 = true → t2.1 = false → result = (false, t2.2)) ∧
      (0xAD00 ≤ s0.1 → t1.1 = true → t2.1 = true → t3.1 = false → result = (false, t3.2)) ∧
      (0xAD00 ≤ s0.1 → t1.1 = true → t2.1 = true → t3.1 = true → t4.1 = false →
        result = (false, t4.2)) ∧
      (0xAD00 ≤ s0.1 → t1.1 = true → t2.1 = true → t3.1 = true → t4.1 = true →
        t5.1 = false → result = (false, t5.2)) ∧
      (0xAD00 ≤ s0.1 → t1.1 = true → t2.1 = true → t3.1 = true → t4.1 = true →
        t5.1 = true → t6.1 = false → result = (false, t6.2)) ∧
      (0xAD00 ≤ s0.1 → t1.1 = true → t2.1 = true → t3.1 = true → t4.1 = true →
        t5.1 = true → t6.1 = true → t7.1 = false → result = (false, t7.2)) ∧
      (result.1 = true →
        result.2 = t7.2 ∧
        ∃ s, (readRegister16 P s RFD77402_DEVICE_STATUS).1 &&& 0x001F = 0x0018 ∧
          t7.2 = (readRegister16 P s RFD77402_DEVICE_STATUS).2) := by
  intro s0 t1 t2 t3 t4 t5 t6 t7 result
  have hdef : result =
      if s0.1 < 0xAD00 then (false, s0.2)
      else if t1.1 = false then (false, t1.2)
      else if t2.1 = false then (false, t2.2)
      else if t3.1 = false then (false, t3.2)
      else if t4.1 = false then (false, t4.2)
      else if t5.1 = false then (false, t5.2)
      else if t6.1 = false then (false, t6.2)
      else if t7.1 = false then (false, t7.2)
      else (true, t7.2) := rfl
  have hon : t7.1 = true →
      ∃ s, (readRegister16 P s RFD77402_DEVICE_STATUS).1 &&& 0x001F = 0x0018 ∧
        t7.2 = (readRegister16 P s RFD77402_DEVICE_STATUS).2 :=
    fun h => pollDeviceStatus_true P 0x0018 10 _ h
  rw [hdef]
  by_cases h0 : s0.1 < 0xAD00
  · simp [h0]
  have h0' : 0xAD00 ≤ s0.1 := by omega
  cases h1 : t1.1
  · simp [h0, h0', h1]
  cases h2 : t2.1
  · simp [h0, h0', h1, h2]
  cases h3 : t3.1
  · simp [h0, h0', h1, h2, h3]
  cases h4 : t4.1
  · simp [h0, h0', h1, h2, h3, h4]
  cases h5 : t5.1
  · simp [h0, h0', h1, h2, h3, h4, h5]
  cases h6 : t6.1
  · simp [h0, h0', h1, h2, h3, h4, h5, h6]
  cases h7 : t7.1
  · simp [h0, h0', h1, h2, h3, h4, h5, h6, h7]
  · simp only [h0, h0', h1, h2, h3, h4, h5, h6, h7]
    simp
    exact hon h7

/-- The writes to the command register in a call of `begin` that returns
true: the opcodes of its seven transitions, in order. -/
theorem writesTo_begin_success (P : Peer δ) (self : RFD77402 δ) (wirePort : TwoWire δ)
    (i2cSpeed : Nat) (h : (begin P self wirePort i2cSpeed).1 = true) :
    writesTo RFD77402_COMMAND (begin P self wirePort i2cSpeed).2._i2cPort.trace =
      writesTo RFD77402_COMMAND wirePort.trace ++
        [[0x90], [0x91], [0x92], [0x90], [0x90], [0x91], [0x92]] := by
  have hb := writesTo_beginPowerOn P
  have ht := writesTo_beginToF P
  unfold begin at h ⊢
  simp only at h ⊢
  split_ifs at h ⊢
  simp only [writesTo_goToStandbyMode, writesTo_goToOffMode, writesTo_goToOnMode,
    writesTo_writeRegister16, getChipID, writesTo_readRegister16,
    hb _ RFD77402_COMMAND (by decide), ht _ RFD77402_COMMAND (by decide)]
  simp [TwoWire.begin, TwoWire.setClock, RFD77402_COMMAND, RFD77402_INTERRUPTS,
    RFD77402_CONFIGURE_I2C, RFD77402_CONFIGURE_PMU]

/-- C13, as stated, fails: on a device where every step of `begin` succeeds,
`begin` returns true and writes seven opcodes to the command register, with
two standby opcodes in a row, not the six of the claim. -/
theorem begin_opcodes_not_six :
    (begin scripted (attach beginScript) (attach beginScript)._i2cPort 100000).1 = true ∧
      writesTo RFD77402_COMMAND
        (begin scripted (attach beginScript) (attach beginScript)._i2cPort
          100000).2._i2cPort.trace =
        [[0x90], [0x91], [0x92], [0x90], [0x90], [0x91], [0x92]] ∧
      writesTo RFD77402_COMMAND
        (begin scripted (attach beginScript) (attach beginScript)._i2cPort
          100000).2._i2cPort.trace ≠
        [[0x90], [0x91], [0x92], [0x90], [0x91], [0x92]] := by
  decide

/-- C13, amended. In every call of `begin` that returns true, the opcodes
written to the command register, in order, are exactly `0x90, 0x91, 0x92,
0x90, 0x90, 0x91, 0x92`: Standby, Off, On, Standby twice in a row, Off, On. -/
theorem begin_opcodes (P : Peer δ) (self : RFD77402 δ) (wirePort : TwoWire δ)
    (i2cSpeed : Nat) (h : (begin P self wirePort i2cSpeed).1 = true) :
    writesTo RFD77402_COMMAND (begin P self wirePort i2cSpeed).2._i2cPort.trace =
        writesTo RFD77402_COMMAND wirePort.trace ++
          [[0x90], [0x91], [0x92], [0x90], [0x90], [0x91], [0x92]] ∧
      RFD77402_COMMAND = 0x04 :=
  ⟨writesTo_begin_success P self wirePort i2cSpeed h, rfl⟩

theorem begin_opcodes_witness :
    writesTo RFD77402_COMMAND
        (begin scripted (attach beginScript) (attach beginScript)._i2cPort
          100000).2._i2cPort.trace =
        writesTo RFD77402_COMMAND (attach beginScript)._i2cPort.trace ++
          [[0x90], [0x91], [0x92], [0x90], [0x90], [0x91], [0x92]] ∧
      RFD77402_COMMAND = 0x04 :=
  begin_opcodes scripted (attach beginScript) (attach beginScript)._i2cPort 100000
    (by decide)

/-- In a call of `begin` that gets past the first Standby, the only write to
the interrupt-source register carries the byte `0x01`. -/
theorem writesTo_begin_interrupts (P : Peer δ) (self : RFD77402 δ) (wirePort : TwoWire δ)
    (i2cSpeed : Nat)
    (hid : 0xAD00 ≤ (getChipID P
      { self with _i2cPort := (wirePort.begin).setClock i2cSpeed }).1)
    (hstandby : (goToStandbyMode P (getChipID P
      { self with _i2cPort := (wirePort.begin).setClock i2cSpeed }).2).1 = true) :
    writesTo RFD77402_INTERRUPTS (begin P self wirePort i2cSpeed).2._i2cPort.trace =
      writesTo RFD77402_INTERRUPTS wirePort.trace ++ [[0x01]] := by
  have hb := writesTo_beginPowerOn P
  have ht := writesTo_beginToF P
  have hid' : ¬ (getChipID P
      { self with _i2cPort := (wirePort.begin).setClock i2cSpeed }).1 < 0xAD00 := by omega
  unfold begin
  simp only [hid', hstandby, if_false]
  split_ifs <;> first
  | (exfalso; assumption)
  | simp only [writesTo_goToStandbyMode, writesTo_goToOffMode, writesTo_goToOnMode,
      writesTo_writeRegister16, getChipID, writesTo_readRegister16,
      hb _ RFD77402_INTERRUPTS (by decide), ht _ RFD77402_INTERRUPTS (by decide)]
    simp [TwoWire.begin, TwoWire.setClock, RFD77402_COMMAND, RFD77402_INTERRUPTS,
      RFD77402_CONFIGURE_I2C, RFD77402_CONFIGURE_PMU]

/-- C14, as stated, fails: on a device where every step of `begin` succeeds
and the interrupt-source register read `0xFF` beforehand, the byte written to
that register is `0x01`, in which bits 1, 2 and 3 are clear. -/
theorem begin_interrupt_sources_not_all :
    (begin scripted (attach beginScript) (attach beginScript)._i2cPort 100000).1 = true ∧
      writesTo RFD77402_INTERRUPTS
        (begin scripted (attach beginScript) (attach beginScript)._i2cPort
          100000).2._i2cPort.trace = [[0x01]] ∧
      (0x01 : Nat).testBit 1 = false ∧ (0x01 : Nat).testBit 2 = false ∧
      (0x01 : Nat).testBit 3 = false := by
  decide

/-- C14, amended. In every call of `begin` that gets past the first Standby
transition, exactly one byte is written to the interrupt-source enable
register (0x02), whatever was read from it beforehand, and that byte is
`0x01`: bit 0 (data ready) is 1 and bits 1, 2 and 3 are 0. -/
theorem begin_interrupt_sources (P : Peer δ) (self : RFD77402 δ) (wirePort : TwoWire δ)
    (i2cSpeed : Nat)
    (hid : 0xAD00 ≤ (getChipID P
      { self with _i2cPort := (wirePort.begin).setClock i2cSpeed }).1)
    (hstandby : (goToStandbyMode P (getChipID P
      { self with _i2cPort := (wirePort.begin).setClock i2cSpeed }).2).1 = true) :
    writesTo RFD77402_INTERRUPTS (begin P self wirePort i2cSpeed).2._i2cPort.trace =
        writesTo RFD77402_INTERRUPTS wirePort.trace ++ [[0x01]] ∧
      RFD77402_INTERRUPTS = 0x02 ∧
      (0x01 : Nat).testBit 0 = true ∧ (0x01 : Nat).testBit 1 = false ∧
      (0x01 : Nat).testBit 2 = false ∧ (0x01 : Nat).testBit 3 = false ∧
      INTSRC_DATA = 1 ∧ INTSRC_M2H = 0 ∧ INTSRC_H2M = 0 ∧ INTSRC_RST = 0 :=
  ⟨writesTo_begin_interrupts P self wirePort i2cSpeed hid hstandby, rfl, rfl, rfl, rfl, rfl,
    rfl, rfl, rfl, rfl⟩

theorem begin_interrupt_sources_witness :
    writesTo RFD77402_INTERRUPTS
        (begin scripted (attach beginScript) (attach beginScript)._i2cPort
          100000).2._i2cPort.trace =
        writesTo RFD77402_INTERRUPTS (attach beginScript)._i2cPort.trace ++ [[0x01]] ∧
      RFD77402_INTERRUPTS = 0x02 ∧
      (0x01 : Nat).testBit 0 = true ∧ (0x01 : Nat).testBit 1 = false ∧
      (0x01 : Nat).testBit 2 = false ∧ (0x01 : Nat).testBit 3 = false ∧
      INTSRC_DATA = 1 ∧ INTSRC_M2H = 0 ∧ INTSRC_H2M = 0 ∧ INTSRC_RST = 0 :=
  begin_interrupt_sources scripted (attach beginScript) (attach beginScript)._i2cPort 100000
    (by decide) (by decide)

/-! ## Failed poll loops -/

theorem failedPolls_append (reg quantity : Nat) (a b : List (List Nat)) :
    failedPolls reg quantity (a ++ b) = failedPolls reg quantity a ++ failedPolls reg quantity b := by
  induction a with
  | nil => rfl
  | cons bs a ih => simp [failedPolls, ih]

theorem failedPolls_delays (reg quantity : Nat) (answers : List (List Nat)) :
    (failedPolls reg quantity answers).countP Event.isDelay = answers.length ∧
      (failedPolls reg quantity answers).countP Event.isRequest = answers.length := by
  induction answers with
  | nil => exact ⟨rfl, rfl⟩
  | cons bs rest ih => simp [failedPolls, Event.isDelay, Event.isRequest, ih.1, ih.2]

theorem failedPolls_reads (reg quantity r : Nat) (answers : List (List Nat)) :
    (failedPolls reg quantity answers).countP (Event.isReadOf r) =
      if reg = r then answers.length else 0 := by
  induction answers with
  | nil => simp [failedPolls]
  | cons bs rest ih =>
    by_cases h : reg = r
    · subst h
      simp only [if_true] at ih
      simp [failedPolls, Event.isReadOf, ih]
    · simp [failedPolls, Event.isReadOf, ih, h]

theorem failedPolls_last (reg quantity : Nat) (answers : List (List Nat))
    (h : answers ≠ []) :
    (failedPolls reg quantity answers).getLast? = some (Event.delay 10) := by
  induction answers with
  | nil => exact absurd rfl h
  | cons bs rest ih =>
    cases rest with
    | nil => rfl
    | cons cs rest =>
      have := ih (by simp)
      simp only [failedPolls] at this ⊢
      simpa [List.getLast?_cons_cons] using this

theorem pollDeviceStatus_false (P : Peer δ) (target n : Nat) (self : RFD77402 δ)
    (h : (pollDeviceStatus P target n self).1 = false) :
    ∃ answers, answers.length = n ∧
      (pollDeviceStatus P target n self).2._i2cPort.trace =
        self._i2cPort.trace ++ failedPolls RFD77402_DEVICE_STATUS 2 answers := by
  induction n generalizing self with
  | zero => exact ⟨[], rfl, by simp [pollDeviceStatus, failedPolls]⟩
  | succ n ih =>
    obtain ⟨bs, hbs⟩ := readRegister16_trace P self RFD77402_DEVICE_STATUS
    simp only [pollDeviceStatus] at h ⊢
    split
    · next hit =>
      rw [if_pos hit] at h
      exact absurd h (by simp)
    · next hit =>
      rw [if_neg hit] at h
      obtain ⟨answers, hlen, ht⟩ := ih _ h
      refine ⟨bs :: answers, by simp [hlen], ?_⟩
      rw [ht]
      simp only [delay, hbs, failedPolls, List.append_assoc, List.cons_append, List.nil_append]
      rfl

theorem pollDataReady_false (P : Peer δ) (n : Nat) (self : RFD77402 δ)
    (h : (pollDataReady P n self).1 = false) :
    ∃ answers, answers.length = n ∧
      (pollDataReady P n self).2._i2cPort.trace =
        self._i2cPort.trace ++ failedPolls RFD77402_ICSR 1 answers := by
  induction n generalizing self with
  | zero => exact ⟨[], rfl, by simp [pollDataReady, failedPolls]⟩
  | succ n ih =>
    obtain ⟨bs, hbs⟩ := readRegister_trace P self RFD77402_ICSR
    simp only [pollDataReady] at h ⊢
    split
    · next hit =>
      rw [if_pos hit] at h
      exact absurd h (by simp)
    · next hit =>
      rw [if_neg hit] at h
      obtain ⟨answers, hlen, ht⟩ := ih _ h
      refine ⟨bs :: answers, by simp [hlen], ?_⟩
      rw [ht]
      simp only [delay, hbs, failedPolls, List.append_assoc, List.cons_append, List.nil_append]
      rfl

/-- A failed transition: the opcode write, then ten missed polls. -/
theorem failed_statusTransition (P : Peer δ) (opcode target : Nat) (hop : opcode < 256)
    (self : RFD77402 δ)
    (h : (pollDeviceStatus P target 10 (writeRegister P self RFD77402_COMMAND opcode)).1 = false) :
    ∃ answers, answers.length = 10 ∧
      (pollDeviceStatus P target 10
        (writeRegister P self RFD77402_COMMAND opcode)).2._i2cPort.trace =
        self._i2cPort.trace ++ Event.transmit RFD77402_ADDR [RFD77402_COMMAND, opcode] ::
          failedPolls RFD77402_DEVICE_STATUS 2 answers := by
  obtain ⟨answers, hlen, ht⟩ := pollDeviceStatus_false P target 10 _ h
  refine ⟨answers, hlen, ?_⟩
  rw [ht, writeRegister_trace, Nat.mod_eq_of_lt hop]
  simp only [List.append_assoc, List.cons_append, List.nil_append]
  rfl

theorem failed_goToMeasurementMode (P : Peer δ) (self : RFD77402 δ)
    (h : (goToMeasurementMode P self).1 = false) :
    ∃ answers, answers.length = 10 ∧
      (goToMeasurementMode P self).2._i2cPort.trace =
        self._i2cPort.trace ++ Event.transmit RFD77402_ADDR [RFD77402_COMMAND, 0x81] ::
          failedPolls RFD77402_ICSR 1 answers := by
  obtain ⟨answers, hlen, ht⟩ := pollDataReady_false P 10 _ h
  refine ⟨answers, hlen, ?_⟩
  simp only [goToMeasurementMode]
  rw [ht, writeRegister_trace]
  simp only [List.append_assoc, List.cons_append, List.nil_append]
  rfl

/-- C18. When `goToMeasurementMode` fails, `takeMeasurement` returns
`CODE_FAILED_TIMEOUT` (5) in the state that the failed transition left: the
bus saw the opcode write and ten missed polls of the interrupt/status
register, no read of the result register or of the confidence register, and
distance, valid pixels and confidence keep their pre-call values. -/
theorem takeMeasurement_timeout (P : Peer δ) (self s1 : RFD77402 δ)
    (hfail : goToMeasurementMode P self = (false, s1)) :
    takeMeasurement P self = (CODE_FAILED_TIMEOUT, s1) ∧
      CODE_FAILED_TIMEOUT = 5 ∧
      (∃ answers, answers.length = 10 ∧
        (takeMeasurement P self).2._i2cPort.trace =
          self._i2cPort.trace ++ Event.transmit RFD77402_ADDR [RFD77402_COMMAND, 0x81] ::
            failedPolls RFD77402_ICSR 1 answers ∧
        (failedPolls RFD77402_ICSR 1 answers).countP (Event.isReadOf RFD77402_RESULT) = 0 ∧
        (failedPolls RFD77402_ICSR 1 answers).countP
          (Event.isReadOf RFD77402_RESULT_CONFIDENCE) = 0) ∧
      (takeMeasurement P self).2.distance = self.distance ∧
      (takeMeasurement P self).2.validPixels = self.validPixels ∧
      (takeMeasurement P self).2.confidenceValue = self.confidenceValue := by
  have key : takeMeasurement P self = (CODE_FAILED_TIMEOUT, s1) := by
    simp only [takeMeasurement, hfail]
    simp
  have hframe := goToMeasurementMode_frame P self
  obtain ⟨answers, hlen, ht⟩ := failed_goToMeasurementMode P self (by rw [hfail])
  rw [hfail] at hframe ht
  simp only at hframe ht
  rw [key]
  refine ⟨rfl, rfl, ⟨answers, hlen, ht, ?_, ?_⟩, by rw [hframe], by rw [hframe], by rw [hframe]⟩
  · rw [failedPolls_reads, if_neg (by decide)]
  · rw [failedPolls_reads, if_neg (by decide)]

theorem takeMeasurement_timeout_witness :
    (takeMeasurement scripted (withReading neverReadyScript)).1 = 5 ∧
      (takeMeasurement scripted (withReading neverReadyScript)).2.distance = 1234 ∧
      (takeMeasurement scripted (withReading neverReadyScript)).2.validPixels = 9 ∧
      (takeMeasurement scripted (withReading neverReadyScript)).2.confidenceValue = 77 ∧
      (takeMeasurement scripted (withReading neverReadyScript)).2._i2cPort.trace.countP
        Event.isRequest = 10 := by
  have h := takeMeasurement_timeout scripted (withReading neverReadyScript)
    (goToMeasurementMode scripted (withReading neverReadyScript)).2 rfl
  obtain ⟨h1, _, _, h2, h3, h4⟩ := h
  exact ⟨by rw [h1]; rfl, h2, h3, h4, by decide⟩

/-- C19. For every register address `a` and every 16-bit value `v`,
`writeRegister16 a v` puts the bytes `a`, `v & 0xFF`, `v >> 8` on the bus in
that order, and `readRegister16` of a device that delivers the two data
bytes `v & 0xFF`, `v >> 8` in that order returns `v`. -/
theorem register16_roundtrip (P : Peer δ) (self other : RFD77402 δ) (a v : Nat)
    (ha : a < 256) (hv : v < 65536) :
    (writeRegister16 P self a v)._i2cPort.trace =
        self._i2cPort.trace ++ [Event.transmit RFD77402_ADDR [a, v &&& 0xFF, v >>> 8]] ∧
      ((P.respond (P.receive other._i2cPort.peer RFD77402_ADDR [a]) RFD77402_ADDR 2).1 =
          [v &&& 0xFF, v >>> 8] →
        (readRegister16 P other a).1 = v) := by
  have h1 : v &&& 0xFF = v % 256 := Nat.and_pow_two_sub_one_eq_mod v 8
  have h2 : v >>> 8 = v / 256 := Nat.shiftRight_eq_div_pow v 8
  constructor
  · rw [writeRegister16_trace, Nat.mod_eq_of_lt ha, h1, h2]
    have h3 : v / 256 % 256 = v / 256 := Nat.mod_eq_of_lt (by omega)
    simp [wordBytes, h3]
  · intro hdeliver
    rw [readRegister16_of_two P other a (v &&& 0xFF) (v >>> 8)
      (by rw [Nat.mod_eq_of_lt ha]; exact hdeliver), h1, h2]
    omega

theorem register16_roundtrip_witness :
    (writeRegister16 registerFile (attach ⟨0, fun _ => 0⟩) 0x14 0x0500)._i2cPort.trace =
        [] ++ [Event.transmit RFD77402_ADDR [0x14, 0x0500 &&& 0xFF, 0x0500 >>> 8]] ∧
      (readRegister16 registerFile
        (writeRegister16 registerFile (attach ⟨0, fun _ => 0⟩) 0x14 0x0500) 0x14).1 = 0x0500 :=
  ⟨(register16_roundtrip registerFile (attach ⟨0, fun _ => 0⟩)
      (writeRegister16 registerFile (attach ⟨0, fun _ => 0⟩) 0x14 0x0500) 0x14 0x0500
      (by decide) (by decide)).1,
    (register16_roundtrip registerFile (attach ⟨0, fun _ => 0⟩)
      (writeRegister16 registerFile (attach ⟨0, fun _ => 0⟩) 0x14 0x0500) 0x14 0x0500
      (by decide) (by decide)).2 rfl⟩

/-- C20, as stated, fails: against a device that never answers,
`goToStandbyMode` fails after ten polls with ten calls of `delay`, not nine,
and the last thing it does is a `delay(10)` after the tenth poll. -/
theorem failed_transition_has_ten_delays :
    (goToStandbyMode scripted (attach deadScript)).1 = false ∧
      (goToStandbyMode scripted (attach deadScript)).2._i2cPort.trace.countP
        (Event.isReadOf RFD77402_DEVICE_STATUS) = 10 ∧
      (goToStandbyMode scripted (attach deadScript)).2._i2cPort.trace.countP
        Event.isDelay = 10 ∧
      (goToStandbyMode scripted (attach deadScript)).2._i2cPort.trace.getLast? =
        some (Event.delay 10) := by
  decide

/-- C20, amended. In a call of `goToStandbyMode`, `goToOffMode`, `goToOnMode`
or `goToMeasurementMode` that returns false, the bus sees the opcode write
and then ten times the same three steps: the register address, the read
request, a `delay(10)`. So exactly ten delays occur, one after each poll,
the last of them after the tenth poll. -/
theorem failed_transition_delays (P : Peer δ) (self : RFD77402 δ) :
    ((goToStandbyMode P self).1 = false →
      ∃ answers, answers.length = 10 ∧
        (goToStandbyMode P self).2._i2cPort.trace =
          self._i2cPort.trace ++ Event.transmit RFD77402_ADDR [RFD77402_COMMAND, 0x90] ::
            failedPolls RFD77402_DEVICE_STATUS 2 answers) ∧
    ((goToOffMode P self).1 = false →
      ∃ answers, answers.length = 10 ∧
        (goToOffMode P self).2._i2cPort.trace =
          self._i2cPort.trace ++ Event.transmit RFD77402_ADDR [RFD77402_COMMAND, 0x91] ::
            failedPolls RFD77402_DEVICE_STATUS 2 answers) ∧
    ((goToOnMode P self).1 = false →
      ∃ answers, answers.length = 10 ∧
        (goToOnMode P self).2._i2cPort.trace =
          self._i2cPort.trace ++ Event.transmit RFD77402_ADDR [RFD77402_COMMAND, 0x92] ::
            failedPolls RFD77402_DEVICE_STATUS 2 answers) ∧
    ((goToMeasurementMode P self).1 = false →
      ∃ answers, answers.length = 10 ∧
        (goToMeasurementMode P self).2._i2cPort.trace =
          self._i2cPort.trace ++ Event.transmit RFD77402_ADDR [RFD77402_COMMAND, 0x81] ::
            failedPolls RFD77402_ICSR 1 answers) ∧
    (∀ reg quantity answers, answers.length = 10 →
      (failedPolls reg quantity answers).countP Event.isDelay = 10 ∧
      (failedPolls reg quantity answers).countP Event.isRequest = 10 ∧
      (failedPolls reg quantity answers).getLast? = some (Event.delay 10)) := by
  refine ⟨fun h => failed_statusTransition P 0x90 0x0000 (by norm_num) self h,
    fun h => failed_statusTransition P 0x91 0x0010 (by norm_num) self h,
    fun h => failed_statusTransition P 0x92 0x0018 (by norm_num) self h,
    fun h => failed_goToMeasurementMode P self h, ?_⟩
  intro reg quantity answers hlen
  have h := failedPolls_delays reg quantity answers
  rw [hlen] at h
  refine ⟨h.1, h.2, failedPolls_last reg quantity answers ?_⟩
  intro hnil
  rw [hnil] at hlen
  exact absurd hlen (by decide)

theorem failed_transition_delays_witness :
    (∃ answers, answers.length = 10 ∧
        (goToStandbyMode scripted (attach deadScript)).2._i2cPort.trace =
          (attach deadScript)._i2cPort.trace ++
            Event.transmit RFD77402_ADDR [RFD77402_COMMAND, 0x90] ::
              failedPolls RFD77402_DEVICE_STATUS 2 answers) ∧
      (∃ answers, answers.length = 10 ∧
        (goToMeasurementMode scripted (attach neverReadyScript)).2._i2cPort.trace =
          (attach neverReadyScript)._i2cPort.trace ++
            Event.transmit RFD77402_ADDR [RFD77402_COMMAND, 0x81] ::
              failedPolls RFD77402_ICSR 1 answers) :=
  ⟨(failed_transition_delays scripted (attach deadScript)).1 (by decide),
    (failed_transition_delays scripted (attach neverReadyScript)).2.2.2.1 (by decide)⟩

/-! ## Calibration retrieval: what every call leaves alone -/

theorem pollDeviceStatus_frame (P : Peer δ) (target n : Nat) (self : RFD77402 δ) :
    (pollDeviceStatus P target n self).2 =
      { self with _i2cPort := (pollDeviceStatus P target n self).2._i2cPort } := by
  induction n generalizing self with
  | zero => rfl
  | succ n ih =>
    simp only [pollDeviceStatus]
    split
    · exact readRegister16_frame P self RFD77402_DEVICE_STATUS
    · rw [ih]
      simp only [delay]
      rw [readRegister16_frame]

theorem goToOnMode_frame (P : Peer δ) (self : RFD77402 δ) :
    (goToOnMode P self).2 = { self with _i2cPort := (goToOnMode P self).2._i2cPort } := by
  simp only [goToOnMode]
  rw [pollDeviceStatus_frame]
  rfl

theorem and_32_ne_zero (x : Nat) : x &&& (1 <<< 5) ≠ 0 ↔ x.testBit 5 = true := by
  have h : x &&& (1 <<< 5) = (x.testBit 5).toNat * 2 ^ 5 := Nat.and_two_pow x 5
  rw [h]
  cases x.testBit 5 <;> simp

theorem drainMailbox_frame (P : Peer δ) (messages : Nat) (self : RFD77402 δ) :
    (drainMailbox P messages self).2 =
      { self with _i2cPort := (drainMailbox P messages self).2._i2cPort } := by
  induction messages, self using drainMailbox.induct P with
  | case1 messages self r h =>
    rw [drainMailbox, if_pos h]
    exact readRegister_frame P self RFD77402_ICSR
  | case2 messages self r h hm =>
    rw [drainMailbox, if_neg h]
    simp only [hm, if_true, getMailbox]
    rw [readRegister16_frame, readRegister_frame]
  | case3 messages self r h m hm ih =>
    rw [drainMailbox, if_neg h]
    simp only [hm, if_false]
    rw [ih]
    simp only [m, r, delay, getMailbox]
    rw [readRegister16_frame, readRegister_frame]

theorem waitForMessage_frame (P : Peer δ) (x : Nat) (self : RFD77402 δ) :
    (waitForMessage P x self).2 =
      { self with _i2cPort := (waitForMessage P x self).2._i2cPort } := by
  induction x, self using waitForMessage.induct P with
  | case1 x self r icsr h =>
    rw [waitForMessage]
    simp only [icsr, r] at h
    simp only [h, ne_eq, not_false_eq_true, if_true]
    exact readRegister_frame P self RFD77402_ICSR
  | case2 x self r icsr h hx =>
    rw [waitForMessage]
    simp only [icsr, r] at h
    simp only [h, hx, if_true, if_false]
    exact readRegister_frame P self RFD77402_ICSR
  | case3 x self r icsr h hx ih =>
    rw [waitForMessage]
    simp only [icsr, r] at h
    simp only [h, hx, if_false]
    rw [ih]
    simp only [r, delay]
    rw [readRegister_frame]

theorem mailboxReads_readRegister (P : Peer δ) (self : RFD77402 δ) :
    mailboxReads (readRegister P self RFD77402_ICSR).2._i2cPort.trace =
      mailboxReads self._i2cPort.trace := by
  obtain ⟨bs, h⟩ := readRegister_trace P self RFD77402_ICSR
  rw [h]
  simp [mailboxReads, Event.isReadOf, RFD77402_ICSR, RFD77402_MCPU_TO_HOST_MAILBOX]

theorem mailboxReads_getMailbox (P : Peer δ) (self : RFD77402 δ) :
    mailboxReads (getMailbox P self).2._i2cPort.trace =
      mailboxReads self._i2cPort.trace + 1 := by
  obtain ⟨bs, h⟩ := readRegister16_trace P self RFD77402_MCPU_TO_HOST_MAILBOX
  simp only [getMailbox]
  rw [h]
  simp [mailboxReads, Event.isReadOf, RFD77402_MCPU_TO_HOST_MAILBOX]

theorem mailboxReads_delay (self : RFD77402 δ) (ms : Nat) :
    mailboxReads (self.delay ms)._i2cPort.trace = mailboxReads self._i2cPort.trace := by
  simp [mailboxReads, delay, Event.isReadOf]

theorem mailboxReads_waitForMessage (P : Peer δ) (x : Nat) (self : RFD77402 δ) :
    mailboxReads (waitForMessage P x self).2._i2cPort.trace =
      mailboxReads self._i2cPort.trace := by
  induction x, self using waitForMessage.induct P with
  | case1 x self r icsr h =>
    rw [waitForMessage]
    simp only [icsr, r] at h
    simp only [h, ne_eq, not_false_eq_true, if_true]
    exact mailboxReads_readRegister P self
  | case2 x self r icsr h hx =>
    rw [waitForMessage]
    simp only [icsr, r] at h
    simp only [h, hx, if_true, if_false]
    exact mailboxReads_readRegister P self
  | case3 x self r icsr h hx ih =>
    rw [waitForMessage]
    simp only [icsr, r] at h
    simp only [h, hx, if_false]
    rw [ih, mailboxReads_delay, mailboxReads_readRegister]

/-- The message loop for an arbitrary device, entered at index `message`:
it keeps distance, valid pixels, confidence and the length of the buffer, it
reads the mailbox some `k` times, and it leaves every buffer byte below
`2 * message` and every byte from `2 * (message + k)` on as it was. -/
theorem receiveMessages_frame (P : Peer δ) (message : Nat) (self : RFD77402 δ) :
    (receiveMessages P message self).2.distance = self.distance ∧
      (receiveMessages P message self).2.validPixels = self.validPixels ∧
      (receiveMessages P message self).2.confidenceValue = self.confidenceValue ∧
      (receiveMessages P message self).2.calibrationData.length =
        self.calibrationData.length ∧
      ∃ k, mailboxReads (receiveMessages P message self).2._i2cPort.trace =
          mailboxReads self._i2cPort.trace + k ∧
        ∀ i, (i < 2 * message ∨ 2 * (message + k) ≤ i) →
          (receiveMessages P message self).2.calibrationData[i]? =
            self.calibrationData[i]? := by
  induction message, self using receiveMessages.induct P with
  | case1 message self hlt w hw =>
    have hf := waitForMessage_frame P 0 self
    rw [receiveMessages, if_pos hlt]
    simp only [w] at hw
    simp only [hw, if_true]
    refine ⟨by rw [hf], by rw [hf], by rw [hf], by rw [hf], 0, ?_, ?_⟩
    · rw [mailboxReads_waitForMessage]
      rfl
    · intro i _
      rw [hf]
  | case2 message self hlt w hw m incoming s1 s2 s3 ih =>
    have hf := waitForMessage_frame P 0 self
    have hg := readRegister16_frame P (waitForMessage P 0 self).2
      RFD77402_MCPU_TO_HOST_MAILBOX
    obtain ⟨ih1, ih2, ih3, ih4, k, ihk, ihc⟩ := ih
    have hstep : receiveMessages P message self = receiveMessages P (message + 1) s3 := by
      rw [receiveMessages, if_pos hlt, if_neg hw]
    rw [hstep]
    have e1 : s3.distance = self.distance := by
      simp only [s3, s2, s1, m, w, getMailbox]
      rw [hg, hf]
    have e2 : s3.validPixels = self.validPixels := by
      simp only [s3, s2, s1, m, w, getMailbox]
      rw [hg, hf]
    have e3 : s3.confidenceValue = self.confidenceValue := by
      simp only [s3, s2, s1, m, w, getMailbox]
      rw [hg, hf]
    have e4 : s3.calibrationData =
        (self.calibrationData.set (message * 2) (incoming >>> 8 % 256)).set
          (message * 2 + 1) ((incoming &&& 0xFF) % 256) := by
      simp only [s3, s2, s1, m, w, getMailbox]
      rw [hg, hf]
    have e5 : mailboxReads s3._i2cPort.trace = mailboxReads self._i2cPort.trace + 1 := by
      show mailboxReads (getMailbox P (waitForMessage P 0 self).2).2._i2cPort.trace = _
      rw [mailboxReads_getMailbox, mailboxReads_waitForMessage]
    refine ⟨ih1.trans e1, ih2.trans e2, ih3.trans e3, ?_, k + 1, ?_, ?_⟩
    · rw [ih4, e4, List.length_set, List.length_set]
    · rw [ihk, e5]
      omega
    · intro i hi
      rw [ihc i (by omega), e4, List.getElem?_set_ne (by omega), List.getElem?_set_ne (by omega)]
  | case3 message self hge =>
    rw [receiveMessages, if_neg hge]
    exact ⟨rfl, rfl, rfl, rfl, 0, rfl, fun _ _ => rfl⟩

/-! ## Calibration retrieval against a scripted device -/

theorem drainMailbox_idle (P : Peer δ) (messages : Nat) (self : RFD77402 δ)
    (h : (readRegister P self RFD77402_ICSR).1 &&& (1 <<< 5) = 0) :
    drainMailbox P messages self = (true, (readRegister P self RFD77402_ICSR).2) := by
  rw [drainMailbox, if_pos h]

theorem waitForMessage_ready (P : Peer δ) (x : Nat) (self : RFD77402 δ)
    (h : (readRegister P self RFD77402_ICSR).1 &&& (1 <<< 5) ≠ 0) :
    waitForMessage P x self = (true, (readRegister P self RFD77402_ICSR).2) := by
  rw [waitForMessage]
  simp only [h, ne_eq, not_false_eq_true, if_true]

theorem wordRead_lt (answer : List Nat) : wordRead answer < 65536 := by
  unfold wordRead
  split
  · omega
  · norm_num

theorem high_byte (w : Nat) (h : w < 65536) : (w >>> 8) % 256 = w >>> 8 := by
  rw [Nat.shiftRight_eq_div_pow]
  exact Nat.mod_eq_of_lt (by omega)

theorem low_byte (w : Nat) : (w &&& 0xFF) % 256 = w &&& 0xFF :=
  Nat.mod_eq_of_lt (lt_of_le_of_lt Nat.and_le_right (by norm_num))

/-- One round of the message loop against a scripted device whose next two
answers are an ICSR byte with bit 5 set and a mailbox word. -/
theorem receiveMessages_step (message : Nat) (self : RFD77402 (Nat → List Nat))
    (hlt : message < 27)
    (hready : (byteRead (self._i2cPort.peer 0)).testBit 5 = true) :
    ∃ s, receiveMessages scripted message self = receiveMessages scripted (message + 1) s ∧
      s._i2cPort.peer = (fun i => self._i2cPort.peer (i + 2)) ∧
      s.calibrationData =
        (self.calibrationData.set (message * 2)
          (wordRead (self._i2cPort.peer 1) >>> 8)).set (message * 2 + 1)
          (wordRead (self._i2cPort.peer 1) &&& 0xFF) := by
  obtain ⟨ha1, ha2⟩ := scripted_readRegister self RFD77402_ICSR
  have haf := readRegister_frame scripted self RFD77402_ICSR
  have hwait : waitForMessage scripted 0 self =
      (true, (readRegister scripted self RFD77402_ICSR).2) :=
    waitForMessage_ready scripted 0 self (by rw [ha1]; exact (and_32_ne_zero _).mpr hready)
  obtain ⟨hb1, hb2⟩ := scripted_readRegister16 (readRegister scripted self RFD77402_ICSR).2
    RFD77402_MCPU_TO_HOST_MAILBOX
  have hbf := readRegister16_frame scripted (readRegister scripted self RFD77402_ICSR).2
    RFD77402_MCPU_TO_HOST_MAILBOX
  rw [ha2] at hb1 hb2
  simp only at hb1 hb2
  refine ⟨{ (readRegister16 scripted (readRegister scripted self RFD77402_ICSR).2
      RFD77402_MCPU_TO_HOST_MAILBOX).2 with
    calibrationData :=
      ((readRegister16 scripted (readRegister scripted self RFD77402_ICSR).2
        RFD77402_MCPU_TO_HOST_MAILBOX).2.calibrationData.set (message * 2)
        (((readRegister16 scripted (readRegister scripted self RFD77402_ICSR).2
          RFD77402_MCPU_TO_HOST_MAILBOX).1 >>> 8) % 256)).set (message * 2 + 1)
        (((readRegister16 scripted (readRegister scripted self RFD77402_ICSR).2
          RFD77402_MCPU_TO_HOST_MAILBOX).1 &&& 0xFF) % 256) }, ?_, ?_, ?_⟩
  · rw [receiveMessages, if_pos hlt, hwait]
    simp only [Bool.true_eq_false, if_false]
    rfl
  · exact hb2
  · show List.set (List.set _ _ _) _ _ = _
    rw [hb1, hbf, haf, high_byte _ (wordRead_lt _), low_byte]

theorem set_pair (l : List Nat) (m hi lo : Nat) :
    (2 * m + 1 < l.length →
        ((l.set (m * 2) hi).set (m * 2 + 1) lo)[2 * m]? = some hi ∧
        ((l.set (m * 2) hi).set (m * 2 + 1) lo)[2 * m + 1]? = some lo) ∧
      (∀ i, i ≠ 2 * m → i ≠ 2 * m + 1 →
        ((l.set (m * 2) hi).set (m * 2 + 1) lo)[i]? = l[i]?) ∧
      ((l.set (m * 2) hi).set (m * 2 + 1) lo).length = l.length := by
  refine ⟨?_, ?_, by rw [List.length_set, List.length_set]⟩
  · intro h
    have e : 2 * m = m * 2 := by omega
    constructor
    · rw [e, List.getElem?_set_ne (by omega), List.getElem?_set_self (by omega)]
    · rw [e, List.getElem?_set_self (by rw [List.length_set]; omega)]
  · intro i h1 h2
    rw [List.getElem?_set_ne (by omega), List.getElem?_set_ne (by omega)]

/-- The message loop against a scripted device that has the next `n`
messages ready: it stores them and carries on at index `message + n`. -/
theorem receiveMessages_prompt (n : Nat) :
    ∀ (message : Nat) (self : RFD77402 (Nat → List Nat)), message + n ≤ 27 →
      (∀ j, j < n → (byteRead (self._i2cPort.peer (2 * j))).testBit 5 = true) →
      ∃ s, receiveMessages scripted message self =
          receiveMessages scripted (message + n) s ∧
        s._i2cPort.peer = (fun i => self._i2cPort.peer (i + 2 * n)) ∧
        s.calibrationData.length = self.calibrationData.length ∧
        (∀ i, (i < 2 * message ∨ 2 * (message + n) ≤ i) →
          s.calibrationData[i]? = self.calibrationData[i]?) ∧
        (∀ j, j < n → 2 * (message + j) + 1 < self.calibrationData.length →
          s.calibrationData[2 * (message + j)]? =
            some (wordRead (self._i2cPort.peer (2 * j + 1)) >>> 8) ∧
          s.calibrationData[2 * (message + j) + 1]? =
            some (wordRead (self._i2cPort.peer (2 * j + 1)) &&& 0xFF)) := by
  induction n with
  | zero =>
    intro message self _ _
    exact ⟨self, rfl, rfl, rfl, fun _ _ => rfl, fun j hj => absurd hj (by omega)⟩
  | succ n ih =>
    intro message self hle hready
    obtain ⟨s1, hstep, hpeer1, hcal1⟩ :=
      receiveMessages_step message self (by omega) (hready 0 (by omega))
    obtain ⟨hw, hu, hl⟩ := set_pair self.calibrationData message
      (wordRead (self._i2cPort.peer 1) >>> 8) (wordRead (self._i2cPort.peer 1) &&& 0xFF)
    rw [← hcal1] at hw hu hl
    have hready1 : ∀ j, j < n → (byteRead (s1._i2cPort.peer (2 * j))).testBit 5 = true := by
      intro j hj
      rw [hpeer1]
      have e : 2 * j + 2 = 2 * (j + 1) := by omega
      simp only [e]
      exact hready (j + 1) (by omega)
    obtain ⟨s, heq, hpeer, hlen, hun, hwr⟩ := ih (message + 1) s1 (by omega) hready1
    have e1 : message + 1 + n = message + (n + 1) := by omega
    refine ⟨s, ?_, ?_, hlen.trans hl, ?_, ?_⟩
    · rw [hstep, heq, e1]
    · rw [hpeer, hpeer1]
      funext i
      have e : i + 2 * n + 2 = i + 2 * (n + 1) := by omega
      simp only [e]
    · intro i hi
      rw [hun i (by omega), hu i (by omega) (by omega)]
    · intro j hj hjl
      cases j with
      | zero =>
        have a1 := hun (2 * message) (by omega)
        have a2 := hun (2 * message + 1) (by omega)
        have hw' := hw (by omega)
        simp only [Nat.add_zero, Nat.mul_zero, Nat.zero_add]
        exact ⟨a1.trans hw'.1, a2.trans hw'.2⟩
      | succ j =>
        have h := hwr j (by omega) (by rw [hl]; omega)
        rw [hpeer1] at h
        have e2 : 2 * (message + 1 + j) = 2 * (message + (j + 1)) := by omega
        have e3 : 2 * j + 1 + 2 = 2 * (j + 1) + 1 := by omega
        simp only [e2, e3] at h
        exact h

theorem scripted_writeRegister16 (self : RFD77402 (Nat → List Nat)) (addr val : Nat) :
    (writeRegister16 scripted self addr val)._i2cPort.peer = self._i2cPort.peer := by
  simp [writeRegister16, TwoWire.endTransmission, TwoWire.write, TwoWire.beginTransmission,
    scripted]

/-- Calibration retrieval against a scripted device that reaches On and has
no stale mailbox message: what remains is the message loop, entered in a
state `c` that has the caller's buffer and the answers behind the first ICSR
read still to come. -/
theorem getCalibrationData_idle (self s1 : RFD77402 (Nat → List Nat))
    (hon : goToOnMode scripted self = (true, s1))
    (hidle : (byteRead (s1._i2cPort.peer 0)).testBit 5 = false) :
    ∃ c, getCalibrationData scripted self =
        (if (receiveMessages scripted 0 c).1 = false
          then (some false, (receiveMessages scripted 0 c).2)
          else (none, (receiveMessages scripted 0 c).2)) ∧
      c._i2cPort.peer = (fun i => s1._i2cPort.peer (i + 1)) ∧
      c.calibrationData = self.calibrationData := by
  obtain ⟨ha1, ha2⟩ := scripted_readRegister s1 RFD77402_ICSR
  have haf := readRegister_frame scripted s1 RFD77402_ICSR
  have hof := goToOnMode_frame scripted self
  rw [hon] at hof
  simp only at hof
  have hclear : (readRegister scripted s1 RFD77402_ICSR).1 &&& (1 <<< 5) = 0 := by
    by_contra hne
    have := (and_32_ne_zero _).mp hne
    rw [ha1, hidle] at this
    exact absurd this (by decide)
  have hdrain := drainMailbox_idle scripted 0 s1 hclear
  refine ⟨writeRegister16 scripted (readRegister scripted s1 RFD77402_ICSR).2
    RFD77402_HOST_TO_MCPU_MAILBOX 0x0006, ?_, ?_, ?_⟩
  · simp only [getCalibrationData, hon, hdrain]
    simp
  · rw [scripted_writeRegister16, ha2]
  · show (readRegister scripted s1 RFD77402_ICSR).2.calibrationData = _
    rw [haf, hof]

/-- Calibration retrieval against a scripted device that reaches On, has no
stale mailbox message and has every one of the 27 messages ready: the
function runs to its end without a `return`, and byte `2k` and `2k+1` of the
buffer are the high and the low byte of message `k`. -/
theorem getCalibrationData_prompt (self s1 : RFD77402 (Nat → List Nat))
    (hlen : self.calibrationData.length = 54)
    (hon : goToOnMode scripted self = (true, s1))
    (hidle : (byteRead (s1._i2cPort.peer 0)).testBit 5 = false)
    (hready : ∀ k, k < 27 → (byteRead (s1._i2cPort.peer (1 + 2 * k))).testBit 5 = true) :
    (getCalibrationData scripted self).1 = none ∧
      ∀ k, k < 27 →
        (getCalibrationData scripted self).2.calibrationData[2 * k]? =
          some (wordRead (s1._i2cPort.peer (2 + 2 * k)) >>> 8) ∧
        (getCalibrationData scripted self).2.calibrationData[2 * k + 1]? =
          some (wordRead (s1._i2cPort.peer (2 + 2 * k)) &&& 0xFF) := by
  obtain ⟨c, hc, hpeer, hcal⟩ := getCalibrationData_idle self s1 hon hidle
  have hready' : ∀ j, j < 27 → (byteRead (c._i2cPort.peer (2 * j))).testBit 5 = true := by
    intro j hj
    rw [hpeer]
    have e : 2 * j + 1 = 1 + 2 * j := by omega
    simp only [e]
    exact hready j hj
  obtain ⟨s, heq, _, _, _, hwr⟩ := receiveMessages_prompt 27 0 c (by omega) hready'
  have hend : receiveMessages scripted (0 + 27) s = (true, s) := by
    rw [receiveMessages, if_neg (by omega)]
  rw [heq, hend] at hc
  simp only [Bool.true_eq_false, if_false] at hc
  rw [hc]
  refine ⟨rfl, ?_⟩
  intro k hk
  have h := hwr k hk (by rw [hcal, hlen]; omega)
  rw [hpeer] at h
  have e1 : 2 * (0 + k) = 2 * k := by omega
  have e2 : 2 * k + 1 + 1 = 2 + 2 * k := by omega
  simp only [e1, e2] at h
  exact h

/-- C15. Against a scripted device on which On mode is reached, no stale
mailbox message is pending, ICSR bit 5 is set at each message poll and the 27
mailbox reads return `m 0 .. m 26`, `getCalibrationData` leaves
`calibrationData[2k] = m k >> 8` and `calibrationData[2k+1] = m k & 0xFF` for
every `k` in 0..26. -/
theorem calibration_bytes (self s1 : RFD77402 (Nat → List Nat)) (m : Nat → Nat)
    (hlen : self.calibrationData.length = 54)
    (hon : goToOnMode scripted self = (true, s1))
    (hidle : (byteRead (s1._i2cPort.peer 0)).testBit 5 = false)
    (hready : ∀ k, k < 27 → (byteRead (s1._i2cPort.peer (1 + 2 * k))).testBit 5 = true)
    (hword : ∀ k, k < 27 → wordRead (s1._i2cPort.peer (2 + 2 * k)) = m k) :
    (getCalibrationData scripted self).2.calibrationData.length = 54 ∧
      ∀ k, k < 27 →
        (getCalibrationData scripted self).2.calibrationData[2 * k]? = some (m k >>> 8) ∧
        (getCalibrationData scripted self).2.calibrationData[2 * k + 1]? =
          some (m k &&& 0xFF) := by
  have h := (getCalibrationData_prompt self s1 hlen hon hidle hready).2
  constructor
  · have hf := goToOnMode_frame scripted self
    have hd := drainMailbox_frame scripted 0 (goToOnMode scripted self).2
    have hr := fun c => (receiveMessages_frame scripted 0 c).2.2.2.1
    simp only [getCalibrationData]
    split
    · rw [hf, hlen]
    · split
      · rw [hd, hf, hlen]
      · split
        · rw [hr]
          show (drainMailbox scripted 0 (goToOnMode scripted self).2).2.calibrationData.length = 54
          rw [hd, hf, hlen]
        · rw [hr]
          show (drainMailbox scripted 0 (goToOnMode scripted self).2).2.calibrationData.length = 54
          rw [hd, hf, hlen]
  · intro k hk
    rw [← hword k hk]
    exact h k hk

theorem calibration_bytes_witness :
    (getCalibrationData scripted (attach calScript)).2.calibrationData.length = 54 ∧
      ∀ k, k < 27 →
        (getCalibrationData scripted (attach calScript)).2.calibrationData[2 * k]? =
          some (wordRead (calScript (2 + 2 * k + 1)) >>> 8) ∧
        (getCalibrationData scripted (attach calScript)).2.calibrationData[2 * k + 1]? =
          some (wordRead (calScript (2 + 2 * k + 1)) &&& 0xFF) :=
  calibration_bytes (attach calScript) (goToOnMode scripted (attach calScript)).2
    (fun k => wordRead (calScript (2 + 2 * k + 1))) rfl rfl (by decide)
    (fun k _ => by
      show (byteRead (calScript (1 + 2 * k + 1))).testBit 5 = true
      unfold calScript
      rw [if_neg (by omega), if_neg (by omega), if_pos (by omega)]
      rfl)
    (fun _ _ => rfl)

/-- C16. Failing input: a device on which On mode is reached, no stale
message is pending and all 27 messages arrive. `getCalibrationData` stores
the 54 bytes and then runs off the end of the function: none of its exits
with a returned value is taken, so the call does not return true. -/
theorem getCalibrationData_returns_no_value :
    (getCalibrationData scripted (attach calScript)).1 = none ∧
      (getCalibrationData scripted (attach calScript)).1 ≠ some true ∧
      ∀ k, k < 27 →
        (getCalibrationData scripted (attach calScript)).2.calibrationData[2 * k]? =
          some (2 * k + 3) ∧
        (getCalibrationData scripted (attach calScript)).2.calibrationData[2 * k + 1]? =
          some (2 * k + 3) := by
  have h := getCalibrationData_prompt (attach calScript)
    (goToOnMode scripted (attach calScript)).2 rfl rfl (by decide)
    (fun k _ => by
      show (byteRead (calScript (1 + 2 * k + 1))).testBit 5 = true
      unfold calScript
      rw [if_neg (by omega), if_neg (by omega), if_pos (by omega)]
      rfl)
  refine ⟨h.1, by rw [h.1]; exact fun e => Option.noConfusion e, ?_⟩
  intro k hk
  have hw : wordRead (calScript (2 + 2 * k + 1)) = 257 * (2 * k + 3) := by
    unfold calScript
    rw [if_neg (by omega), if_neg (by omega), if_neg (by omega), wordRead_wordBytes]
    omega
  have h2 := h.2 k hk
  have hp : wordRead ((goToOnMode scripted (attach calScript)).2._i2cPort.peer (2 + 2 * k)) =
      wordRead (calScript (2 + 2 * k + 1)) := rfl
  rw [hp, hw] at h2
  have e1 : (257 * (2 * k + 3)) >>> 8 = 2 * k + 3 := by
    rw [Nat.shiftRight_eq_div_pow]
    omega
  have e2 : (257 * (2 * k + 3)) &&& 0xFF = 2 * k + 3 := by
    have : ∀ y : Nat, y &&& 0xFF = y % 256 := fun y => Nat.and_pow_two_sub_one_eq_mod y 8
    rw [this]
    omega
  rw [e1, e2] at h2
  exact h2

/-- The wait for a message against a scripted device that keeps ICSR bit 5
clear: with the counter at `x` it gives up after `12 - x` reads. -/
theorem waitForMessage_timeout (n : Nat) :
    ∀ (x : Nat) (self : RFD77402 (Nat → List Nat)), x + n = 11 →
      (∀ j, j ≤ n → (byteRead (self._i2cPort.peer j)).testBit 5 = false) →
      (waitForMessage scripted x self).1 = false := by
  induction n with
  | zero =>
    intro x self hx hclear
    obtain ⟨ha1, _⟩ := scripted_readRegister self RFD77402_ICSR
    have hnot : ¬ ((readRegister scripted self RFD77402_ICSR).1 &&& (1 <<< 5) ≠ 0) := by
      intro h
      have := (and_32_ne_zero _).mp h
      rw [ha1, hclear 0 (by omega)] at this
      exact absurd this (by decide)
    rw [waitForMessage]
    simp only [hnot, if_false]
    rw [if_pos (by omega)]
  | succ n ih =>
    intro x self hx hclear
    obtain ⟨ha1, ha2⟩ := scripted_readRegister self RFD77402_ICSR
    have hnot : ¬ ((readRegister scripted self RFD77402_ICSR).1 &&& (1 <<< 5) ≠ 0) := by
      intro h
      have := (and_32_ne_zero _).mp h
      rw [ha1, hclear 0 (by omega)] at this
      exact absurd this (by decide)
    rw [waitForMessage]
    simp only [hnot, if_false]
    rw [if_neg (by omega)]
    apply ih (x + 1) _ (by omega)
    intro j hj
    have hp : ((readRegister scripted self RFD77402_ICSR).2.delay 10)._i2cPort.peer =
        (fun k => self._i2cPort.peer (k + 1)) := ha2
    rw [hp]
    exact hclear (j + 1) (by omega)

/-- C17, as stated, fails: against a device that delivers one message and
then lets the poll for message 1 time out, `getCalibrationData` returns false
and bytes 0 and 1 of `calibrationData`, zero before the call, hold `0xAB` and
`0xCD` after it. -/
theorem getCalibrationData_timeout_overwrites :
    (getCalibrationData scripted (attach timeoutScript)).1 = some false ∧
      (attach timeoutScript).calibrationData[0]? = some 0 ∧
      (attach timeoutScript).calibrationData[1]? = some 0 ∧
      (getCalibrationData scripted (attach timeoutScript)).2.calibrationData[0]? = some 0xAB ∧
      (getCalibrationData scripted (attach timeoutScript)).2.calibrationData[1]? =
        some 0xCD := by
  obtain ⟨c, hc, hpeer, hcal⟩ := getCalibrationData_idle (attach timeoutScript)
    (goToOnMode scripted (attach timeoutScript)).2 rfl (by decide)
  have hp : (goToOnMode scripted (attach timeoutScript)).2._i2cPort.peer =
      (fun i => timeoutScript (i + 1)) := rfl
  rw [hp] at hpeer
  obtain ⟨s, heq, hspeer, _, _, hwr⟩ := receiveMessages_prompt 1 0 c (by omega) (by
    intro j hj
    have : j = 0 := by omega
    subst this
    rw [hpeer]
    decide)
  rw [hpeer] at hspeer
  have hwait : (waitForMessage scripted 0 s).1 = false :=
    waitForMessage_timeout 11 0 s (by omega) (by
      intro j _
      rw [hspeer]
      show (byteRead (timeoutScript (j + 2 * 1 + 1 + 1))).testBit 5 = false
      unfold timeoutScript
      rw [if_neg (by omega), if_neg (by omega), if_neg (by omega), if_neg (by omega)]
      rfl)
  have hrest : receiveMessages scripted (0 + 1) s = (false, (waitForMessage scripted 0 s).2) := by
    rw [receiveMessages, if_pos (by omega)]
    simp only [hwait, if_true]
  rw [heq, hrest] at hc
  simp only [if_true] at hc
  have hwf := waitForMessage_frame scripted 0 s
  have h0 := hwr 0 (by omega) (by rw [hcal]; decide)
  rw [hpeer] at h0
  rw [hc]
  refine ⟨rfl, rfl, rfl, ?_, ?_⟩
  · show (waitForMessage scripted 0 s).2.calibrationData[0]? = some 0xAB
    rw [hwf]
    exact h0.1
  · show (waitForMessage scripted 0 s).2.calibrationData[1]? = some 0xCD
    rw [hwf]
    exact h0.2

/-- C17, amended. Every call of `getCalibrationData` keeps distance, valid
pixels, confidence and the length of the buffer. A call that fails at the On
transition or in the drain loop leaves the whole buffer as it was. Behind
that, with `k` the number of mailbox words read after the command `0x0006`,
every buffer byte from index `2 * k` on is as it was; so a poll timeout at
message index 0 leaves the whole buffer as it was. -/
theorem getCalibrationData_failure (P : Peer δ) (self : RFD77402 δ) :
    let toOn := goToOnMode P self
    let drained := drainMailbox P 0 toOn.2
    let asked := writeRegister16 P drained.2 RFD77402_HOST_TO_MCPU_MAILBOX 0x0006
    let result := getCalibrationData P self
    result.2.distance = self.distance ∧
      result.2.validPixels = self.validPixels ∧
      result.2.confidenceValue = self.confidenceValue ∧
      result.2.calibrationData.length = self.calibrationData.length ∧
      (toOn.1 = false →
        result = (some false, toOn.2) ∧ result.2.calibrationData = self.calibrationData) ∧
      (toOn.1 = true → drained.1 = false →
        result = (some false, drained.2) ∧
        result.2.calibrationData = self.calibrationData) ∧
      (toOn.1 = true → drained.1 = true →
        (∀ i, 2 * (mailboxReads result.2._i2cPort.trace -
            mailboxReads asked._i2cPort.trace) ≤ i →
          result.2.calibrationData[i]? = self.calibrationData[i]?) ∧
        (mailboxReads result.2._i2cPort.trace = mailboxReads asked._i2cPort.trace →
          result.2.calibrationData = self.calibrationData)) := by
  intro toOn drained asked result
  have hf : toOn.2 = { self with _i2cPort := toOn.2._i2cPort } := goToOnMode_frame P self
  have hd : drained.2 = { toOn.2 with _i2cPort := drained.2._i2cPort } :=
    drainMailbox_frame P 0 toOn.2
  have hasked : asked.calibrationData = self.calibrationData ∧
      asked.distance = self.distance ∧ asked.validPixels = self.validPixels ∧
      asked.confidenceValue = self.confidenceValue := by
    refine ⟨?_, ?_, ?_, ?_⟩
    · show drained.2.calibrationData = _
      rw [hd, hf]
    · show drained.2.distance = _
      rw [hd, hf]
    · show drained.2.validPixels = _
      rw [hd, hf]
    · show drained.2.confidenceValue = _
      rw [hd, hf]
  obtain ⟨r1, r2, r3, r4, k, hk, hun⟩ := receiveMessages_frame P 0 asked
  have hdef : result =
      if toOn.1 = false then (some false, toOn.2)
      else if drained.1 = false then (some false, drained.2)
      else if (receiveMessages P 0 asked).1 = false
        then (some false, (receiveMessages P 0 asked).2)
        else (none, (receiveMessages P 0 asked).2) := rfl
  cases hon : toOn.1
  · have hres : result = (some false, toOn.2) := by rw [hdef]; simp [hon]
    rw [hres]
    simp
    refine ⟨by rw [hf], by rw [hf], by rw [hf], by rw [hf], by rw [hf]⟩
  cases hdr : drained.1
  · have hres : result = (some false, drained.2) := by rw [hdef]; simp [hon, hdr]
    rw [hres]
    simp
    refine ⟨by rw [hd, hf], by rw [hd, hf], by rw [hd, hf], by rw [hd, hf], by rw [hd, hf]⟩
  · have hres : result.2 = (receiveMessages P 0 asked).2 := by
      rw [hdef]
      simp only [hon, hdr, Bool.true_eq_false, if_false]
      split <;> rfl
    rw [hres]
    simp only [Bool.true_eq_false, false_implies, true_implies, true_and]
    have hall : ∀ i, 2 * (mailboxReads (receiveMessages P 0 asked).2._i2cPort.trace -
        mailboxReads asked._i2cPort.trace) ≤ i →
        (receiveMessages P 0 asked).2.calibrationData[i]? = self.calibrationData[i]? := by
      intro i hi
      rw [hk] at hi
      rw [hun i (by omega), hasked.1]
    refine ⟨r1.trans hasked.2.1, r2.trans hasked.2.2.1, r3.trans hasked.2.2.2,
      r4.trans (by rw [hasked.1]), hall, ?_⟩
    intro hsame
    apply List.ext_getElem?
    intro i
    exact hall i (by rw [hsame]; omega)

theorem getCalibrationData_failure_witness :
    (getCalibrationData scripted (withReading timeoutScript)).2.distance = 1234 ∧
      (getCalibrationData scripted (withReading timeoutScript)).2.validPixels = 9 ∧
      (getCalibrationData scripted (withReading timeoutScript)).2.confidenceValue = 77 ∧
      (getCalibrationData scripted (withReading timeoutScript)).2.calibrationData.length =
        54 ∧
      ∀ i, 2 * (mailboxReads
            (getCalibrationData scripted (withReading timeoutScript)).2._i2cPort.trace -
          mailboxReads (writeRegister16 scripted
            (drainMailbox scripted 0
              (goToOnMode scripted (withReading timeoutScript)).2).2
            RFD77402_HOST_TO_MCPU_MAILBOX 0x0006)._i2cPort.trace) ≤ i →
        (getCalibrationData scripted (withReading timeoutScript)).2.calibrationData[i]? =
          (withReading timeoutScript).calibrationData[i]? := by
  obtain ⟨h1, h2, h3, h4, _, _, h7⟩ :=
    getCalibrationData_failure scripted (withReading timeoutScript)
  have hdr : (drainMailbox scripted 0
      (goToOnMode scripted (withReading timeoutScript)).2).1 = true := by
    rw [drainMailbox_idle scripted 0 _ (by decide)]
  exact ⟨h1, h2, h3, h4, (h7 (by decide) hdr).1⟩

/-! ## Calibration retrieval: how long the loops run -/

theorem icsrReads_readRegister (P : Peer δ) (self : RFD77402 δ) :
    icsrReads (readRegister P self RFD77402_ICSR).2._i2cPort.trace =
      icsrReads self._i2cPort.trace + 1 := by
  obtain ⟨bs, h⟩ := readRegister_trace P self RFD77402_ICSR
  rw [h]
  simp [icsrReads, Event.isReadOf, RFD77402_ICSR]

theorem icsrReads_getMailbox (P : Peer δ) (self : RFD77402 δ) :
    icsrReads (getMailbox P self).2._i2cPort.trace = icsrReads self._i2cPort.trace := by
  obtain ⟨bs, h⟩ := readRegister16_trace P self RFD77402_MCPU_TO_HOST_MAILBOX
  simp only [getMailbox]
  rw [h]
  simp [icsrReads, Event.isReadOf, RFD77402_ICSR, RFD77402_MCPU_TO_HOST_MAILBOX]

theorem icsrReads_delay (self : RFD77402 δ) (ms : Nat) :
    icsrReads (self.delay ms)._i2cPort.trace = icsrReads self._i2cPort.trace := by
  simp [icsrReads, delay, Event.isReadOf]

theorem icsrReads_writeRegister16 (P : Peer δ) (self : RFD77402 δ) (addr val : Nat) :
    icsrReads (writeRegister16 P self addr val)._i2cPort.trace =
      icsrReads self._i2cPort.trace := by
  rw [writeRegister16_trace]
  simp [icsrReads, Event.isReadOf, wordBytes]

/-- The drain loop for an arbitrary device, entered with the counter at
`messages`: it reads ICSR `k` times and the mailbox `j` times, neither more
than `29 - messages` times, and exactly that often when it gives up. -/
theorem drainMailbox_reads (P : Peer δ) (messages : Nat) (self : RFD77402 δ)
    (hm : messages ≤ 28) :
    ∃ k j, icsrReads (drainMailbox P messages self).2._i2cPort.trace =
        icsrReads self._i2cPort.trace + k ∧
      mailboxReads (drainMailbox P messages self).2._i2cPort.trace =
        mailboxReads self._i2cPort.trace + j ∧
      k ≤ 29 - messages ∧ j ≤ 29 - messages ∧ j ≤ k ∧
      ((drainMailbox P messages self).1 = false → k = 29 - messages ∧ j = 29 - messages) ∧
      ((drainMailbox P messages self).1 = true → j + 1 = k) := by
  induction messages, self using drainMailbox.induct P with
  | case1 messages self r h =>
    rw [drainMailbox, if_pos h]
    refine ⟨1, 0, icsrReads_readRegister P self, mailboxReads_readRegister P self,
      by omega, by omega, by omega, ?_, fun _ => rfl⟩
    intro hf
    exact absurd hf (by simp)
  | case2 messages self r h hgt =>
    rw [drainMailbox, if_neg h]
    simp only [hgt, if_true]
    refine ⟨1, 1, ?_, ?_, by omega, by omega, by omega, fun _ => by omega, ?_⟩
    · rw [icsrReads_getMailbox, icsrReads_readRegister]
    · rw [mailboxReads_getMailbox, mailboxReads_readRegister]
    · intro hf
      exact absurd hf (by simp)
  | case3 messages self r h m hle ih =>
    obtain ⟨k, j, hk, hj, bk, bj, bjk, hfalse, htrue⟩ := ih (by omega)
    rw [drainMailbox, if_neg h]
    simp only [hle, if_false]
    refine ⟨k + 1, j + 1, ?_, ?_, by omega, by omega, by omega, ?_, ?_⟩
    · rw [hk, icsrReads_delay]
      simp only [m, r]
      rw [icsrReads_getMailbox, icsrReads_readRegister]
      omega
    · rw [hj, mailboxReads_delay]
      simp only [m, r]
      rw [mailboxReads_getMailbox, mailboxReads_readRegister]
      omega
    · intro hf
      have := hfalse hf
      omega
    · intro ht
      have := htrue ht
      omega

/-- The wait for a message for an arbitrary device, entered with the counter
at `x`: it reads ICSR at least once and at most `12 - x` times, and exactly
`12 - x` times when it gives up. -/
theorem waitForMessage_reads (P : Peer δ) (x : Nat) (self : RFD77402 δ) (hx : x ≤ 11) :
    ∃ k, icsrReads (waitForMessage P x self).2._i2cPort.trace =
        icsrReads self._i2cPort.trace + k ∧
      1 ≤ k ∧ k ≤ 12 - x ∧
      ((waitForMessage P x self).1 = false → k = 12 - x) := by
  induction x, self using waitForMessage.induct P with
  | case1 x self r icsr h =>
    rw [waitForMessage]
    simp only [icsr, r] at h
    simp only [h, ne_eq, not_false_eq_true, if_true]
    refine ⟨1, icsrReads_readRegister P self, by omega, by omega, ?_⟩
    intro hf
    exact absurd hf (by simp)
  | case2 x self r icsr h hgt =>
    rw [waitForMessage]
    simp only [icsr, r] at h
    simp only [h, hgt, if_true, if_false]
    exact ⟨1, icsrReads_readRegister P self, by omega, by omega, fun _ => by omega⟩
  | case3 x self r icsr h hle ih =>
    obtain ⟨k, hk, b1, b2, hfalse⟩ := ih (by omega)
    rw [waitForMessage]
    simp only [icsr, r] at h
    simp only [h, hle, if_false]
    refine ⟨k + 1, ?_, by omega, by omega, ?_⟩
    · rw [hk, icsrReads_delay, icsrReads_readRegister]
      omega
    · intro hf
      have := hfalse hf
      omega

/-- The message loop for an arbitrary device, entered at index `message`:
at most twelve ICSR reads for each of the messages still to come. -/
theorem receiveMessages_reads (P : Peer δ) (message : Nat) (self : RFD77402 δ)
    (hm : message ≤ 27) :
    ∃ k, icsrReads (receiveMessages P message self).2._i2cPort.trace =
        icsrReads self._i2cPort.trace + k ∧
      k ≤ 12 * (27 - message) := by
  induction message, self using receiveMessages.induct P with
  | case1 message self hlt w hw =>
    obtain ⟨k, hk, _, b2, _⟩ := waitForMessage_reads P 0 self (by omega)
    rw [receiveMessages, if_pos hlt]
    simp only [w] at hw
    simp only [hw, if_true]
    exact ⟨k, hk, by omega⟩
  | case2 message self hlt w hw m incoming s1 s2 s3 ih =>
    obtain ⟨k, hk, _, b2, _⟩ := waitForMessage_reads P 0 self (by omega)
    obtain ⟨k', hk', b'⟩ := ih (by omega)
    have hstep : receiveMessages P message self = receiveMessages P (message + 1) s3 := by
      rw [receiveMessages, if_pos hlt, if_neg hw]
    have e : icsrReads s3._i2cPort.trace = icsrReads self._i2cPort.trace + k := by
      show icsrReads (getMailbox P (waitForMessage P 0 self).2).2._i2cPort.trace = _
      rw [icsrReads_getMailbox, hk]
    rw [hstep]
    refine ⟨k + k', ?_, by omega⟩
    rw [hk', e]
    omega
  | case3 message self hge =>
    rw [receiveMessages, if_neg hge]
    exact ⟨0, rfl, by omega⟩

/-- The drain loop against a scripted device that shows ICSR bit 5 set at
every poll: with the counter at `messages` it gives up. -/
theorem drainMailbox_overflow (n : Nat) :
    ∀ (messages : Nat) (self : RFD77402 (Nat → List Nat)), messages + n = 28 →
      (∀ j, j ≤ n → (byteRead (self._i2cPort.peer (2 * j))).testBit 5 = true) →
      (drainMailbox scripted messages self).1 = false := by
  induction n with
  | zero =>
    intro messages self hm hset
    obtain ⟨ha1, _⟩ := scripted_readRegister self RFD77402_ICSR
    have hne : ¬ ((readRegister scripted self RFD77402_ICSR).1 &&& (1 <<< 5) = 0) := by
      rw [ha1]
      exact (and_32_ne_zero _).mpr (hset 0 (by omega))
    rw [drainMailbox, if_neg hne]
    simp only
    rw [if_pos (by omega)]
  | succ n ih =>
    intro messages self hm hset
    obtain ⟨ha1, ha2⟩ := scripted_readRegister self RFD77402_ICSR
    obtain ⟨_, hb2⟩ := scripted_readRegister16 (readRegister scripted self RFD77402_ICSR).2
      RFD77402_MCPU_TO_HOST_MAILBOX
    have hne : ¬ ((readRegister scripted self RFD77402_ICSR).1 &&& (1 <<< 5) = 0) := by
      rw [ha1]
      exact (and_32_ne_zero _).mpr (hset 0 (by omega))
    rw [drainMailbox, if_neg hne]
    simp only
    rw [if_neg (by omega)]
    apply ih (messages + 1) _ (by omega)
    intro j hj
    have hp : ((getMailbox scripted (readRegister scripted self RFD77402_ICSR).2).2.delay
        10)._i2cPort.peer = (fun k => self._i2cPort.peer (k + 1 + 1)) := by
      simp only [delay, getMailbox]
      rw [hb2, ha2]
    rw [hp]
    have e : 2 * j + 1 + 1 = 2 * (j + 1) := by omega
    simp only [e]
    exact hset (j + 1) (by omega)

/-- C21. `getCalibrationData` returns for every device: its two `while (1)`
loops and its `for` loop are defined by recursion on `28 - messages`,
`11 - x` and `27 - message`. The drain loop reads ICSR and the mailbox at
most 29 times each, and exactly 29 times each when it returns false. A wait
for a message reads ICSR at most 12 times, and exactly 12 times when it
returns false. A whole call reads ICSR at most `29 + 27 * 12` times after the
On transition. -/
theorem getCalibrationData_bounded (P : Peer δ) (self : RFD77402 δ) :
    let toOn := goToOnMode P self
    let drained := drainMailbox P 0 toOn.2
    (∃ k j, icsrReads drained.2._i2cPort.trace = icsrReads toOn.2._i2cPort.trace + k ∧
        mailboxReads drained.2._i2cPort.trace = mailboxReads toOn.2._i2cPort.trace + j ∧
        k ≤ 29 ∧ j ≤ 29 ∧ (drained.1 = false → k = 29 ∧ j = 29)) ∧
      (∀ s : RFD77402 δ, ∃ k,
        icsrReads (waitForMessage P 0 s).2._i2cPort.trace = icsrReads s._i2cPort.trace + k ∧
        k ≤ 12 ∧ ((waitForMessage P 0 s).1 = false → k = 12)) ∧
      (∃ k, icsrReads (getCalibrationData P self).2._i2cPort.trace =
          icsrReads toOn.2._i2cPort.trace + k ∧
        k ≤ 29 + 27 * 12) := by
  intro toOn drained
  obtain ⟨k, j, hk, hj, bk, bj, _, hfalse, _⟩ := drainMailbox_reads P 0 toOn.2 (by omega)
  refine ⟨⟨k, j, hk, hj, by omega, by omega, fun h => by have := hfalse h; omega⟩, ?_, ?_⟩
  · intro s
    obtain ⟨k, hk, _, b2, hf⟩ := waitForMessage_reads P 0 s (by omega)
    exact ⟨k, hk, by omega, fun h => by have := hf h; omega⟩
  · have hdef : getCalibrationData P self =
        if toOn.1 = false then (some false, toOn.2)
        else if drained.1 = false then (some false, drained.2)
        else if (receiveMessages P 0 (writeRegister16 P drained.2
            RFD77402_HOST_TO_MCPU_MAILBOX 0x0006)).1 = false
          then (some false, (receiveMessages P 0 (writeRegister16 P drained.2
            RFD77402_HOST_TO_MCPU_MAILBOX 0x0006)).2)
          else (none, (receiveMessages P 0 (writeRegister16 P drained.2
            RFD77402_HOST_TO_MCPU_MAILBOX 0x0006)).2) := rfl
    obtain ⟨k2, hk2, b2⟩ := receiveMessages_reads P 0
      (writeRegister16 P drained.2 RFD77402_HOST_TO_MCPU_MAILBOX 0x0006) (by omega)
    rw [icsrReads_writeRegister16, hk] at hk2
    rw [hdef]
    split
    · exact ⟨0, rfl, by omega⟩
    · split
      · exact ⟨k, hk, by omega⟩
      · split
        · exact ⟨k + k2, by rw [hk2]; omega, by omega⟩
        · exact ⟨k + k2, by rw [hk2]; omega, by omega⟩

theorem getCalibrationData_bounded_witness :
    (goToOnMode scripted (attach floodScript)).1 = true ∧
      (drainMailbox scripted 0 (goToOnMode scripted (attach floodScript)).2).1 = false ∧
      (∃ k j,
        icsrReads (drainMailbox scripted 0
            (goToOnMode scripted (attach floodScript)).2).2._i2cPort.trace =
          icsrReads (goToOnMode scripted (attach floodScript)).2._i2cPort.trace + k ∧
        mailboxReads (drainMailbox scripted 0
            (goToOnMode scripted (attach floodScript)).2).2._i2cPort.trace =
          mailboxReads (goToOnMode scripted (attach floodScript)).2._i2cPort.trace + j ∧
        k = 29 ∧ j = 29) ∧
      (∃ k, icsrReads (getCalibrationData scripted (attach floodScript)).2._i2cPort.trace =
          icsrReads (goToOnMode scripted (attach floodScript)).2._i2cPort.trace + k ∧
        k ≤ 29 + 27 * 12) := by
  have hover : (drainMailbox scripted 0 (goToOnMode scripted (attach floodScript)).2).1 =
      false :=
    drainMailbox_overflow 28 0 _ (by omega) (by
      intro j _
      show (byteRead (floodScript (2 * j + 1))).testBit 5 = true
      unfold floodScript
      rw [if_neg (by omega)]
      rfl)
  obtain ⟨⟨k, j, hk, hj, _, _, hf⟩, _, htotal⟩ :=
    getCalibrationData_bounded scripted (attach floodScript)
  exact ⟨by decide, hover, ⟨k, j, hk, hj, (hf hover).1, (hf hover).2⟩, htotal⟩

end Rfd
